import Mathlib

/-!
Verification of the Roll & Write Foundry core engine against its
natural-language specification.

The development shallowly embeds the TypeScript sources:

* `packages/core/src/rng/xorshift128plus.ts` — the deterministic RNG
  (`Xorshift128Plus`), including seed normalization, hexadecimal state
  serialization and rejection-sampled bounded draws;
* `packages/core/src/expr` — the mini expression language (lexer, parser,
  evaluator, identifier extraction);
* `packages/core/src/session.ts` — the turn-phase session state machine and
  the autoplay runner.

Modelling conventions: JavaScript numbers are modelled as `Rat` (the claims
and templates only exercise exact, finite arithmetic); unsigned 64-bit BigInt
arithmetic is modelled as `Nat` with explicit masking by `2 ^ 64`; thrown
exceptions are modelled with `Except`, and every stateful session operation
returns its (possibly partially mutated) state next to the `Except` result so
that exception-time state is preserved exactly as in the source.  Unbounded
loops (the RNG rejection loop, the autoplay driver) take an explicit fuel
argument; exhausting the fuel is reported as an error.
-/

set_option autoImplicit false

namespace RWF

/-- Error values thrown by the embedded code, one constructor per error class
used in the source (`MiniExprSyntaxError`, `MiniExprEvaluationError`,
`RangeError`, plain `Error`). -/

inductive JsError where
  | miniSyntax (message : String)
  | miniEval (message : String)
  | range (message : String)
  | generic (message : String)
deriving DecidableEq

/-- A one-character string holding an ASCII apostrophe (code 39), used to
reproduce the quoted fragments of the source error messages. -/

def sq : String := String.mk [Char.ofNat 39]

instance {ε α : Type} [DecidableEq ε] [DecidableEq α] : DecidableEq (Except ε α)
  | .error e, .error f =>
    if h : e = f then .isTrue (by rw [h]) else .isFalse (by simp [h])
  | .error _, .ok _ => .isFalse (by simp)
  | .ok _, .error _ => .isFalse (by simp)
  | .ok a, .ok b =>
    if h : a = b then .isTrue (by rw [h]) else .isFalse (by simp [h])

/-! ## Deterministic RNG (`rng/xorshift128plus.ts`) -/

/-- Constant `UINT64_MASK = (1n << 64n) - 1n`. -/

def UINT64_MASK : Nat := 2 ^ 64 - 1

/-- Function `toUint64(value) = value & UINT64_MASK`. -/

def toUint64 (value : Nat) : Nat := value &&& UINT64_MASK

/-- BigInt values in the seed paths may be negative; `&`-masking a negative
BigInt in JavaScript is two's-complement, i.e. reduction mod `2 ^ 64`. -/

def toUint64OfInt (value : Int) : Nat := (value % (2 ^ 64 : Int)).toNat

/-- One advance of the closure produced by `splitmix64(seed)`: returns the
updated captured `state` together with the produced value. -/

def splitmix64Next (state : Nat) : Nat × Nat :=
  let state := toUint64 (state + 0x9e3779b97f4a7c15)
  let z := state
  let z := toUint64 ((z ^^^ (z >>> 30)) * 0xbf58476d1ce4e5b9)
  let z := toUint64 ((z ^^^ (z >>> 27)) * 0x94d049bb133111eb)
  (state, toUint64 (z ^^^ (z >>> 31)))

/-- Function `hashString(seed)`: FNV-1a over the UTF-16 code units of the
seed string (the identifiers used as seeds are ASCII, where `charCodeAt`
agrees with the code point). -/

def hashString (seed : String) : Nat :=
  seed.data.foldl (fun hash c => toUint64 ((hash ^^^ c.toNat) * 0x100000001b3)) 0xcbf29ce484222325

/-- RNG state: the two unsigned 64-bit words `state0`, `state1`. -/

structure RngState where
  state0 : Nat
  state1 : Nat
deriving DecidableEq

/-- Serialized RNG state (`SerializedRngState` in `types.ts`): the algorithm
tag and the two state words as hexadecimal strings. -/

structure SerializedRngState where
  algorithm : String
  state : String × String
deriving DecidableEq

/-- Seed inputs accepted by the constructor (`SeedInput` in the source). -/

inductive SeedInput where
  | number (value : Int)
  | bigint (value : Int)
  | str (value : String)
  | pair (s0 s1 : Int)
  | serialized (state : SerializedRngState)

/-- Character for one hexadecimal digit, lower case, as produced by
`BigInt.prototype.toString(16)`. -/

def hexDigitChar (d : Nat) : Char :=
  if d < 10 then Char.ofNat (48 + d) else Char.ofNat (87 + d)

/-- Little-endian base-16 digits of a natural number, with fuel (the fuel
`value + 1` always suffices, and the explicit fuel keeps the function
computable by reduction). -/

def hexDigitsAux : Nat → Nat → List Nat
  | 0, _ => []
  | fuel + 1, n => if n = 0 then [] else n % 16 :: hexDigitsAux fuel (n / 16)

/-- Function `toHex(value)`: lower-case hexadecimal digits of `value`,
left-padded with zeros to 16 digits (`padStart(16, '0')`), with a `0x`
prefix.  The digit list is empty for `0`, which padding turns into the same
all-zero string JavaScript produces for `"0".padStart(16, '0')`. -/

def toHex (value : Nat) : String :=
  let digits := ((hexDigitsAux (value + 1) value).reverse.map hexDigitChar)
  String.mk ('0' :: 'x' :: (List.replicate (16 - digits.length) '0' ++ digits))

/-- Numeric value of one lower-case hexadecimal digit character, as consumed
by `BigInt("0x...")`. -/

def hexCharVal (c : Char) : Nat :=
  if 97 ≤ c.toNat then c.toNat - 87 else c.toNat - 48

/-- Parsing of a `0x`-prefixed hexadecimal string by `BigInt(...)` (only the
well-formed strings produced by `toHex` are ever parsed). -/

def parseHex (s : String) : Nat :=
  (s.data.drop 2).foldl (fun acc c => 16 * acc + hexCharVal c) 0

/-- Shared body of the `bigint` branch of `normalizeSeed`.  The `serialized`
branch of `normalizeSeed` can throw on an unsupported algorithm tag, hence
the `Except` there. -/

def normalizeSeedOfBigInt (value : Int) : RngState :=
  let gen := splitmix64Next (toUint64OfInt value)
  let gen2 := splitmix64Next gen.1
  ⟨gen.2, if gen2.2 = 0 then 1 else gen2.2⟩

/-- Function `normalizeSeed(seed)`: turns any accepted seed input into a
two-word 64-bit state.  The `number` and missing-seed branches recurse into
the `bigint` branch in the source; here they call its shared body
`normalizeSeedOfBigInt` directly. -/

def normalizeSeed : Option SeedInput → Except JsError RngState
  | some (.number value) => .ok (normalizeSeedOfBigInt value)
  | some (.bigint value) => .ok (normalizeSeedOfBigInt value)
  | some (.str value) =>
    let gen := splitmix64Next (hashString value)
    let gen2 := splitmix64Next gen.1
    .ok ⟨gen.2, if gen2.2 = 0 then 1 else gen2.2⟩
  | none => .ok (normalizeSeedOfBigInt 1)
  | some (.pair a b) =>
    let s0 := toUint64OfInt a
    let s1 := toUint64OfInt b
    if s0 = 0 ∧ s1 = 0 then .ok ⟨s0, 1⟩ else .ok ⟨s0, s1⟩
  | some (.serialized st) =>
    if st.algorithm ≠ "xorshift128+" then
      .error (.generic ("Unsupported RNG algorithm: " ++ st.algorithm))
    else
      let state0 := toUint64 (parseHex st.state.1)
      let state1 := toUint64 (parseHex st.state.2)
      if state0 = 0 ∧ state1 = 0 then .ok ⟨state0, 1⟩ else .ok ⟨state0, state1⟩

/-- Method `serialize()`. -/

def serialize (s : RngState) : SerializedRngState :=
  ⟨"xorshift128+", (toHex s.state0, toHex s.state1)⟩

/-- Method `nextBigInt()`: one xorshift128+ step.  Returns the drawn value
together with the updated state. -/

def nextBigInt (s : RngState) : Nat × RngState :=
  let s1 := s.state0
  let s0 := s.state1
  let state0 := s0
  let s1 := s1 ^^^ ((s1 <<< 23) &&& UINT64_MASK)
  let s1 := s1 ^^^ (s1 >>> 17)
  let s1 := s1 ^^^ s0
  let s1 := s1 ^^^ (s0 >>> 26)
  let state1 := toUint64 s1
  (toUint64 (state1 + s0), ⟨state0, state1⟩)

/-- Rejection loop of `nextInt`, with fuel standing in for the unbounded
`while (true)` of the source. -/

def nextIntAux (bound threshold : Nat) : Nat → RngState → Except JsError Nat × RngState
  | 0, rng => (.error (.range "nextInt rejection loop fuel exhausted"), rng)
  | fuel + 1, rng =>
    let value := (nextBigInt rng).1
    let rng := (nextBigInt rng).2
    if value < threshold then (.ok (value % bound), rng)
    else nextIntAux bound threshold fuel rng

/-- Method `nextInt(maxExclusive)`: validates the bound, then draws by
rejection sampling against `UINT64_MASK - (UINT64_MASK % bound)`. -/

def nextInt (fuel : Nat) (maxExclusive : Rat) (rng : RngState) :
    Except JsError Nat × RngState :=
  if maxExclusive.den ≠ 1 ∨ maxExclusive ≤ 0 then
    (.error (.range "maxExclusive must be a positive integer"), rng)
  else
    let bound := maxExclusive.num.toNat
    let threshold := UINT64_MASK - UINT64_MASK % bound
    nextIntAux bound threshold fuel rng

/-- Modelled from claim C2 verbatim: the claimed step scrambles `word1`
(the second state word), XORs the scramble with `word0`, makes the new state
`(old word1, scramble result)` and returns `new_state1 + old word0` mod
`2 ^ 64`. -/

def nextBigIntClaimC2 (s : RngState) : Nat × RngState :=
  let word0 := s.state0
  let w := s.state1 ^^^ ((s.state1 <<< 23) % 2 ^ 64)
  let w := w ^^^ (w >>> 17)
  let w := w ^^^ word0
  let w := w ^^^ (word0 >>> 26)
  ((w % 2 ^ 64 + word0) % 2 ^ 64, ⟨s.state1, w % 2 ^ 64⟩)

/-- Modelled from the amended claim C2: the step scrambles `word0` (the first
state word) and XORs with `word1`; the new state is `(old word1, result)` and
the returned value is `(new_state1 + old word1) mod 2 ^ 64`. -/

def nextBigIntAmendedC2 (s : RngState) : Nat × RngState :=
  let t := s.state0 ^^^ ((s.state0 <<< 23) % 2 ^ 64)
  let t := t ^^^ (t >>> 17)
  let t := t ^^^ s.state1
  let t := t ^^^ (s.state1 >>> 26)
  ((t % 2 ^ 64 + s.state1) % 2 ^ 64, ⟨s.state1, t % 2 ^ 64⟩)

/-! ## Rejection-sampling characterization (C3) -/

/-- Modelled from claim C3 verbatim: identical to `nextInt` except that the
rejection threshold is `2 ^ 64 − (2 ^ 64 mod bound)` as the claim states it,
rather than the code's `UINT64_MASK − (UINT64_MASK mod bound)`. -/

def nextIntClaimC3 (fuel : Nat) (maxExclusive : Rat) (rng : RngState) :
    Except JsError Nat × RngState :=
  if maxExclusive.den ≠ 1 ∨ maxExclusive ≤ 0 then
    (.error (.range "maxExclusive must be a positive integer"), rng)
  else
    let bound := maxExclusive.num.toNat
    let threshold := 2 ^ 64 - 2 ^ 64 % bound
    nextIntAux bound threshold fuel rng

/-- State of the RNG after `n` draws. -/

def stateAfterDraws (rng : RngState) : Nat → RngState
  | 0 => rng
  | n + 1 => (nextBigInt (stateAfterDraws rng n)).2

/-- Value of the `i`-th (0-based) 64-bit draw from `rng`. -/

def drawValue (rng : RngState) (i : Nat) : Nat :=
  (nextBigInt (stateAfterDraws rng i)).1

/-! ## Serialization round trip (C4) -/

/-! ## Mini expression language (`expr/mini-expr.ts`)

The AST is embedded without the source spans: spans are carried by the
source only for error diagnostics and are ignored by evaluation, identifier
extraction and the session engine. -/

/-- Values of the mini language (`MiniValue = number | boolean | null`). -/

inductive MiniValue where
  | num (value : Rat)
  | bool (value : Bool)
  | null
deriving DecidableEq

/-- Unary operators `!` and `-`. -/

inductive UnaryOp where
  | not
  | neg
deriving DecidableEq

/-- Binary operators, in the source's `BinaryExpression` operator set. -/

inductive BinOp where
  | or | and | eq | ne | lt | le | gt | ge | add | sub | mul | div | mod | pow
deriving DecidableEq

/-!
Expression AST (`ExpressionNode`), spans omitted.  The callee of a
`CallExpression` is an `Identifier` node in the source; only its name is
semantically relevant, so it is embedded as the name.  The argument list is
the mutually inductive `ExprList` (isomorphic to `List Expr`) so that the
evaluator and the identifier walk are plain mutual structural recursions.
-/

mutual

/-- Expression AST nodes (`ExpressionNode`). -/
inductive Expr where
  | numberLiteral (value : Rat)
  | booleanLiteral (value : Bool)
  | nullLiteral
  | identifier (name : String)
  | unary (op : UnaryOp) (argument : Expr)
  | binary (op : BinOp) (left : Expr) (right : Expr)
  | call (callee : String) (arguments : ExprList)

/-- Argument list of a `CallExpression`. -/
inductive ExprList where
  | nil
  | cons (head : Expr) (tail : ExprList)

end

/-- Lexer tokens (`Token`), spans omitted; `comma` and `eof` carry the fixed
values `","` and `""` in the source. -/

inductive Token where
  | number (value : String)
  | identifier (value : String)
  | operator (value : String)
  | paren (value : String)
  | comma
  | eof
deriving DecidableEq

/-- Value carried by a token (the `value` field in the source). -/

def tokenValue : Token → String
  | .number v => v
  | .identifier v => v
  | .operator v => v
  | .paren v => v
  | .comma => ","
  | .eof => ""

/-- Constant `operatorTokens`. -/

def operatorTokens : List String :=
  ["||", "&&", "==", "!=", "<=", ">=", "+", "-", "*", "/", "%", "^", "<", ">", "!"]

/-- Test `/\s/` restricted to the ASCII whitespace characters (the grammar
produces only these; Unicode space classes never occur in templates). -/

def isWhitespaceChar (c : Char) : Bool :=
  c = ' ' ∨ c = Char.ofNat 9 ∨ c = Char.ofNat 10 ∨ c = Char.ofNat 13 ∨
    c = Char.ofNat 11 ∨ c = Char.ofNat 12

/-- Test `/[0-9]/`. -/

def isDigitChar (c : Char) : Bool := 48 ≤ c.toNat ∧ c.toNat ≤ 57

/-- Test `/[A-Za-z_]/`. -/

def isIdentStartChar (c : Char) : Bool :=
  (65 ≤ c.toNat ∧ c.toNat ≤ 90) ∨ (97 ≤ c.toNat ∧ c.toNat ≤ 122) ∨ c.toNat = 95

/-- Test `/[A-Za-z0-9_]/`. -/

def isIdentChar (c : Char) : Bool := isIdentStartChar c ∨ isDigitChar c

/-- Number scan of the lexer: consumes digits with at most one decimal
point, mirroring the `hasDot` loop; returns the consumed characters and the
rest. -/

def lexNumberChars (hasDot : Bool) : List Char → List Char × List Char
  | [] => ([], [])
  | c :: cs =>
    if c = '.' then
      if hasDot then ([], c :: cs)
      else
        let next := lexNumberChars true cs
        (c :: next.1, next.2)
    else if isDigitChar c then
      let next := lexNumberChars hasDot cs
      (c :: next.1, next.2)
    else ([], c :: cs)

/-- Identifier scan of the lexer. -/

def lexIdentChars : List Char → List Char × List Char
  | [] => ([], [])
  | c :: cs =>
    if isIdentChar c then
      let next := lexIdentChars cs
      (c :: next.1, next.2)
    else ([], c :: cs)

/-- Main loop of `tokenize(source)`.  Every loop iteration consumes at least
one character, so the character count bounds the iterations; the fuel models
that loop counter. -/

def tokenizeAux : Nat → List Char → Except JsError (List Token)
  | 0, _ => .error (.miniSyntax "tokenizer fuel exhausted")
  | _ + 1, [] => .ok [Token.eof]
  | fuel + 1, c :: cs =>
    if isWhitespaceChar c then tokenizeAux fuel cs
    else if isDigitChar c then
      let scan := lexNumberChars false (c :: cs)
      do
        let ts ← tokenizeAux fuel scan.2
        .ok (Token.number (String.mk scan.1) :: ts)
    else if isIdentStartChar c then
      let scan := lexIdentChars (c :: cs)
      do
        let ts ← tokenizeAux fuel scan.2
        .ok (Token.identifier (String.mk scan.1) :: ts)
    else if c = '(' ∨ c = ')' then do
      let ts ← tokenizeAux fuel cs
      .ok (Token.paren (String.mk [c]) :: ts)
    else if c = ',' then do
      let ts ← tokenizeAux fuel cs
      .ok (Token.comma :: ts)
    else
      match cs with
      | d :: cs2 =>
        if String.mk [c, d] ∈ operatorTokens then do
          let ts ← tokenizeAux fuel cs2
          .ok (Token.operator (String.mk [c, d]) :: ts)
        else if String.mk [c] ∈ operatorTokens then do
          let ts ← tokenizeAux fuel cs
          .ok (Token.operator (String.mk [c]) :: ts)
        else .error (.miniSyntax ("Unexpected character " ++ sq ++ String.mk [c] ++ sq))
      | [] =>
        if String.mk [c] ∈ operatorTokens then do
          let ts ← tokenizeAux fuel []
          .ok (Token.operator (String.mk [c]) :: ts)
        else .error (.miniSyntax ("Unexpected character " ++ sq ++ String.mk [c] ++ sq))

/-- Function `tokenize(source)`. -/

def tokenize (source : String) : Except JsError (List Token) :=
  tokenizeAux (source.length + 1) source.data

/-- Value of a digit string, as in `Number(...)` on the integral part. -/

def digitsVal (cs : List Char) : Nat :=
  cs.foldl (fun acc c => 10 * acc + (c.toNat - 48)) 0

/-- Split at the first decimal point (the lexer guarantees at most one). -/

def splitAtDot : List Char → List Char × Option (List Char)
  | [] => ([], none)
  | c :: cs =>
    if c = '.' then ([], some cs)
    else
      let rest := splitAtDot cs
      (c :: rest.1, rest.2)

/-- Conversion `Number(token.value)` for the lexer's number tokens, which
consist of digits with at most one decimal point (a trailing point, as in
`"1."`, is accepted by `Number` and contributes a zero fraction). -/

def parseNumber (s : String) : Rat :=
  match splitAtDot s.data with
  | (intPart, none) => (digitsVal intPart : Rat)
  | (intPart, some fracPart) =>
    (digitsVal intPart : Rat) + (digitsVal fracPart : Rat) / (10 : Rat) ^ fracPart.length

/-- First unread token (`peek()`); the token list always ends with `eof`. -/

def peekTok : List Token → Token
  | [] => Token.eof
  | t :: _ => t

/-!
Recursive-descent parser (`parseExpression`).  Each function takes the
unconsumed token list and returns the parsed node with the remaining tokens.
The mutual recursion of the source has no structural measure (parenthesized
sub-expressions re-enter the top level), so every function carries fuel;
every recursive call strictly decreases it.  The driver supplies fuel
proportional to the token count, which dominates the recursion depth.
-/

mutual

/-- Entry point `parseExpressionInner()` = `parseLogicalOr()`. -/
def parseExpressionInner : Nat → List Token → Except JsError (Expr × List Token)
  | 0, _ => .error (.miniSyntax "parser fuel exhausted")
  | fuel + 1, tokens => parseLogicalOr fuel tokens

/-- Parser level `parseLogicalOr()`. -/
def parseLogicalOr : Nat → List Token → Except JsError (Expr × List Token)
  | 0, _ => .error (.miniSyntax "parser fuel exhausted")
  | fuel + 1, tokens => do
    let first ← parseLogicalAnd fuel tokens
    parseLogicalOrLoop fuel first.1 first.2

/-- Iteration of the `while (checkOperator('||'))` loop. -/
def parseLogicalOrLoop : Nat → Expr → List Token → Except JsError (Expr × List Token)
  | 0, _, _ => .error (.miniSyntax "parser fuel exhausted")
  | fuel + 1, expr, tokens =>
    match tokens with
    | Token.operator "||" :: rest => do
      let right ← parseLogicalAnd fuel rest
      parseLogicalOrLoop fuel (.binary .or expr right.1) right.2
    | _ => .ok (expr, tokens)

/-- Parser level `parseLogicalAnd()`. -/
def parseLogicalAnd : Nat → List Token → Except JsError (Expr × List Token)
  | 0, _ => .error (.miniSyntax "parser fuel exhausted")
  | fuel + 1, tokens => do
    let first ← parseEquality fuel tokens
    parseLogicalAndLoop fuel first.1 first.2

/-- Iteration of the `while (checkOperator('&&'))` loop. -/
def parseLogicalAndLoop : Nat → Expr → List Token → Except JsError (Expr × List Token)
  | 0, _, _ => .error (.miniSyntax "parser fuel exhausted")
  | fuel + 1, expr, tokens =>
    match tokens with
    | Token.operator "&&" :: rest => do
      let right ← parseEquality fuel rest
      parseLogicalAndLoop fuel (.binary .and expr right.1) right.2
    | _ => .ok (expr, tokens)

/-- Parser level `parseEquality()`. -/
def parseEquality : Nat → List Token → Except JsError (Expr × List Token)
  | 0, _ => .error (.miniSyntax "parser fuel exhausted")
  | fuel + 1, tokens => do
    let first ← parseComparison fuel tokens
    parseEqualityLoop fuel first.1 first.2

/-- Iteration of the equality-operator loop (`==`, `!=`). -/
def parseEqualityLoop : Nat → Expr → List Token → Except JsError (Expr × List Token)
  | 0, _, _ => .error (.miniSyntax "parser fuel exhausted")
  | fuel + 1, expr, tokens =>
    match tokens with
    | Token.operator "==" :: rest => do
      let right ← parseComparison fuel rest
      parseEqualityLoop fuel (.binary .eq expr right.1) right.2
    | Token.operator "!=" :: rest => do
      let right ← parseComparison fuel rest
      parseEqualityLoop fuel (.binary .ne expr right.1) right.2
    | _ => .ok (expr, tokens)

/-- Parser level `parseComparison()`. -/
def parseComparison : Nat → List Token → Except JsError (Expr × List Token)
  | 0, _ => .error (.miniSyntax "parser fuel exhausted")
  | fuel + 1, tokens => do
    let first ← parseAdditive fuel tokens
    parseComparisonLoop fuel first.1 first.2

/-- Iteration of the comparison-operator loop (`<`, `<=`, `>`, `>=`). -/
def parseComparisonLoop : Nat → Expr → List Token → Except JsError (Expr × List Token)
  | 0, _, _ => .error (.miniSyntax "parser fuel exhausted")
  | fuel + 1, expr, tokens =>
    match tokens with
    | Token.operator "<" :: rest => do
      let right ← parseAdditive fuel rest
      parseComparisonLoop fuel (.binary .lt expr right.1) right.2
    | Token.operator "<=" :: rest => do
      let right ← parseAdditive fuel rest
      parseComparisonLoop fuel (.binary .le expr right.1) right.2
    | Token.operator ">" :: rest => do
      let right ← parseAdditive fuel rest
      parseComparisonLoop fuel (.binary .gt expr right.1) right.2
    | Token.operator ">=" :: rest => do
      let right ← parseAdditive fuel rest
      parseComparisonLoop fuel (.binary .ge expr right.1) right.2
    | _ => .ok (expr, tokens)

/-- Parser level `parseAdditive()`. -/
def parseAdditive : Nat → List Token → Except JsError (Expr × List Token)
  | 0, _ => .error (.miniSyntax "parser fuel exhausted")
  | fuel + 1, tokens => do
    let first ← parseMultiplicative fuel tokens
    parseAdditiveLoop fuel first.1 first.2

/-- Iteration of the additive-operator loop (`+`, `-`). -/
def parseAdditiveLoop : Nat → Expr → List Token → Except JsError (Expr × List Token)
  | 0, _, _ => .error (.miniSyntax "parser fuel exhausted")
  | fuel + 1, expr, tokens =>
    match tokens with
    | Token.operator "+" :: rest => do
      let right ← parseMultiplicative fuel rest
      parseAdditiveLoop fuel (.binary .add expr right.1) right.2
    | Token.operator "-" :: rest => do
      let right ← parseMultiplicative fuel rest
      parseAdditiveLoop fuel (.binary .sub expr right.1) right.2
    | _ => .ok (expr, tokens)

/-- Parser level `parseMultiplicative()`. -/
def parseMultiplicative : Nat → List Token → Except JsError (Expr × List Token)
  | 0, _ => .error (.miniSyntax "parser fuel exhausted")
  | fuel + 1, tokens => do
    let first ← parseExponent fuel tokens
    parseMultiplicativeLoop fuel first.1 first.2

/-- Iteration of the multiplicative-operator loop (`*`, `/`, `%`). -/
def parseMultiplicativeLoop : Nat → Expr → List Token → Except JsError (Expr × List Token)
  | 0, _, _ => .error (.miniSyntax "parser fuel exhausted")
  | fuel + 1, expr, tokens =>
    match tokens with
    | Token.operator "*" :: rest => do
      let right ← parseExponent fuel rest
      parseMultiplicativeLoop fuel (.binary .mul expr right.1) right.2
    | Token.operator "/" :: rest => do
      let right ← parseExponent fuel rest
      parseMultiplicativeLoop fuel (.binary .div expr right.1) right.2
    | Token.operator "%" :: rest => do
      let right ← parseExponent fuel rest
      parseMultiplicativeLoop fuel (.binary .mod expr right.1) right.2
    | _ => .ok (expr, tokens)

/-- Parser level `parseExponent()`: parses one unary operand, then folds
further `^` applications left to right, each consuming exactly one unary
operand on its right. -/
def parseExponent : Nat → List Token → Except JsError (Expr × List Token)
  | 0, _ => .error (.miniSyntax "parser fuel exhausted")
  | fuel + 1, tokens => do
    let first ← parseUnary fuel tokens
    parseExponentLoop fuel first.1 first.2

/-- Iteration of the `while (peek() is operator '^')` loop of
`parseExponent()`. -/
def parseExponentLoop : Nat → Expr → List Token → Except JsError (Expr × List Token)
  | 0, _, _ => .error (.miniSyntax "parser fuel exhausted")
  | fuel + 1, expr, tokens =>
    match tokens with
    | Token.operator "^" :: rest => do
      let right ← parseUnary fuel rest
      parseExponentLoop fuel (.binary .pow expr right.1) right.2
    | _ => .ok (expr, tokens)

/-- Parser level `parseUnary()` (`!`, `-`, else primary). -/
def parseUnary : Nat → List Token → Except JsError (Expr × List Token)
  | 0, _ => .error (.miniSyntax "parser fuel exhausted")
  | fuel + 1, tokens =>
    match tokens with
    | Token.operator "!" :: rest => do
      let argument ← parseUnary fuel rest
      .ok (.unary .not argument.1, argument.2)
    | Token.operator "-" :: rest => do
      let argument ← parseUnary fuel rest
      .ok (.unary .neg argument.1, argument.2)
    | _ => parsePrimary fuel tokens

/-- Parser level `parsePrimary()`: literals, identifiers, calls and
parenthesized sub-expressions. -/
def parsePrimary : Nat → List Token → Except JsError (Expr × List Token)
  | 0, _ => .error (.miniSyntax "parser fuel exhausted")
  | fuel + 1, tokens =>
    match tokens with
    | Token.number value :: rest => .ok (.numberLiteral (parseNumber value), rest)
    | Token.identifier value :: rest =>
      if value = "true" then .ok (.booleanLiteral true, rest)
      else if value = "false" then .ok (.booleanLiteral false, rest)
      else if value = "null" then .ok (.nullLiteral, rest)
      else
        match rest with
        | Token.paren "(" :: rest2 =>
          match rest2 with
          | Token.paren ")" :: rest3 => .ok (.call value .nil, rest3)
          | _ => do
            let args ← parseCallArgs fuel rest2
            match args.2 with
            | Token.paren ")" :: rest3 => .ok (.call value args.1, rest3)
            | _ => .error (.miniSyntax "Expected closing parenthesis")
        | _ => .ok (.identifier value, rest)
    | Token.paren "(" :: rest => do
      let inner ← parseExpressionInner fuel rest
      match inner.2 with
      | Token.paren ")" :: rest2 => .ok (inner.1, rest2)
      | _ => .error (.miniSyntax "Expected closing parenthesis")
    | t :: _ =>
      .error (.miniSyntax ("Unexpected token " ++ sq ++ tokenValue t ++ sq))
    | [] => .error (.miniSyntax ("Unexpected token " ++ sq ++ sq))

/-- Argument loop of a call: `do { parseExpressionInner() } while (match
comma)`. -/
def parseCallArgs : Nat → List Token → Except JsError (ExprList × List Token)
  | 0, _ => .error (.miniSyntax "parser fuel exhausted")
  | fuel + 1, tokens => do
    let arg ← parseExpressionInner fuel tokens
    match arg.2 with
    | Token.comma :: rest => do
      let args ← parseCallArgs fuel rest
      .ok (.cons arg.1 args.1, args.2)
    | _ => .ok (.cons arg.1 .nil, arg.2)

end

/-- Function `parseExpression(source)`: tokenize, parse one expression,
require the end of input.  The fuel bound is generous: the recursion depth is
at most the grammar-level chain length per consumed token. -/

def parseExpression (source : String) : Except JsError Expr := do
  let tokens ← tokenize source
  let result ← parseExpressionInner ((tokens.length + 1) * 16) tokens
  match peekTok result.2 with
  | Token.eof => .ok result.1
  | _ => .error (.miniSyntax "Unexpected input after expression")

/-- Compiled expression (`CompiledExpression = {source, ast}`). -/

structure CompiledExpression where
  source : String
  ast : Expr

/-- Function `compileExpression(source)`. -/

def compileExpression (source : String) : Except JsError CompiledExpression := do
  let ast ← parseExpression source
  .ok ⟨source, ast⟩

/-- Evaluation context: variable bindings and the optional user function
table, both as association lists keyed by name with unique keys (JavaScript
object own-property lookup).  The optional RNG handle of the source is
omitted: the session engine never supplies one, so the dice builtins always
take the missing-RNG error branch (modelled below).  The `variables` field of
the source is named `vars` here because `variables` is reserved in Lean. -/

structure EvaluationContext where
  vars : List (String × MiniValue) := []
  functions : List (String × (List MiniValue → MiniValue)) := []

/-- Own-property lookup in an association list. -/

def lookupAssoc {α : Type} (entries : List (String × α)) (name : String) : Option α :=
  (entries.find? (fun p => p.1 = name)).map Prod.snd

/-- Helper `asNumber(value, message)` (in the rational model every numeric
value is finite, so the `Number.isFinite` test always passes). -/

def asNumber : MiniValue → String → Except JsError Rat
  | .num v, _ => .ok v
  | _, message => .error (.miniEval message)

/-- Helper `asBoolean(value, message)`. -/

def asBoolean : MiniValue → String → Except JsError Bool
  | .bool b, _ => .ok b
  | _, message => .error (.miniEval message)

/-- JavaScript truthiness of a `MiniValue` (`NaN`, absent from the model, is
the only other falsy number). -/

def truthy : MiniValue → Bool
  | .num v => v ≠ 0
  | .bool b => b
  | .null => false

/-- Exponentiation `left ** right` on the cases where the double result is
exact and rational: integral exponents (negative ones with a nonzero base).
A fractional exponent or `0 ** negative` produces an irrational or infinite
double, outside the rational model, and is mapped to an error; no template
or claim exercises those cases. -/

def jsPow (left right : Rat) : Except JsError Rat :=
  if right.den = 1 ∧ 0 ≤ right.num then .ok (left ^ right.num.toNat)
  else if right.den = 1 ∧ left ≠ 0 then .ok (left ^ right.num)
  else .error (.miniEval "exponent outside the rational model")

/-- Truncation toward zero, as used by the JavaScript `%` remainder. -/

def ratTrunc (x : Rat) : Int := if 0 ≤ x then x.floor else -((-x).floor)

/-- JavaScript remainder `a % b` for `b ≠ 0`: same sign as `a`. -/

def jsRem (a b : Rat) : Rat := a - b * (ratTrunc (a / b) : Rat)

/-- Math.round: halves round toward positive infinity. -/

def jsRound (v : Rat) : Int := (v + 1 / 2).floor

mutual

/-- Tree-walk evaluator `evaluateNode(node)` from `evaluateExpression`. -/
def evaluateNode (context : EvaluationContext) : Expr → Except JsError MiniValue
  | .numberLiteral value => .ok (.num value)
  | .booleanLiteral value => .ok (.bool value)
  | .nullLiteral => .ok .null
  | .identifier name =>
    match lookupAssoc context.vars name with
    | some v => .ok v
    | none => .error (.miniEval ("Unknown identifier " ++ sq ++ name ++ sq))
  | .unary .not argument => do
    let a ← evaluateNode context argument
    let b ← asBoolean a "Logical not expects a boolean operand"
    .ok (.bool !b)
  | .unary .neg argument => do
    let a ← evaluateNode context argument
    let n ← asNumber a "Unary minus expects a numeric operand"
    .ok (.num (-n))
  | .binary .or left right => do
    let l ← evaluateNode context left
    if truthy l then .ok (.bool true)
    else do
      let r ← evaluateNode context right
      .ok (.bool (truthy r))
  | .binary .and left right => do
    let l ← evaluateNode context left
    if !truthy l then .ok (.bool false)
    else do
      let r ← evaluateNode context right
      .ok (.bool (truthy r))
  | .binary .eq left right => do
    let l ← evaluateNode context left
    let r ← evaluateNode context right
    .ok (.bool (decide (l = r)))
  | .binary .ne left right => do
    let l ← evaluateNode context left
    let r ← evaluateNode context right
    .ok (.bool (decide (l ≠ r)))
  | .binary .lt left right => do
    let l ← evaluateNode context left
    let ln ← asNumber l "Comparison operands must be numbers"
    let r ← evaluateNode context right
    let rn ← asNumber r "Comparison operands must be numbers"
    .ok (.bool (decide (ln < rn)))
  | .binary .le left right => do
    let l ← evaluateNode context left
    let ln ← asNumber l "Comparison operands must be numbers"
    let r ← evaluateNode context right
    let rn ← asNumber r "Comparison operands must be numbers"
    .ok (.bool (decide (ln ≤ rn)))
  | .binary .gt left right => do
    let l ← evaluateNode context left
    let ln ← asNumber l "Comparison operands must be numbers"
    let r ← evaluateNode context right
    let rn ← asNumber r "Comparison operands must be numbers"
    .ok (.bool (decide (rn < ln)))
  | .binary .ge left right => do
    let l ← evaluateNode context left
    let ln ← asNumber l "Comparison operands must be numbers"
    let r ← evaluateNode context right
    let rn ← asNumber r "Comparison operands must be numbers"
    .ok (.bool (decide (rn ≤ ln)))
  | .binary .add left right => do
    let l ← evaluateNode context left
    let ln ← asNumber l "Addition operands must be numbers"
    let r ← evaluateNode context right
    let rn ← asNumber r "Addition operands must be numbers"
    .ok (.num (ln + rn))
  | .binary .sub left right => do
    let l ← evaluateNode context left
    let ln ← asNumber l "Subtraction operands must be numbers"
    let r ← evaluateNode context right
    let rn ← asNumber r "Subtraction operands must be numbers"
    .ok (.num (ln - rn))
  | .binary .mul left right => do
    let l ← evaluateNode context left
    let ln ← asNumber l "Multiplication operands must be numbers"
    let r ← evaluateNode context right
    let rn ← asNumber r "Multiplication operands must be numbers"
    .ok (.num (ln * rn))
  | .binary .div left right => do
    let l ← evaluateNode context left
    let ln ← asNumber l "Division operands must be numbers"
    let r ← evaluateNode context right
    let rn ← asNumber r "Division operands must be numbers"
    if rn = 0 then .error (.miniEval "Division by zero")
    else .ok (.num (ln / rn))
  | .binary .mod left right => do
    let l ← evaluateNode context left
    let ln ← asNumber l "Modulo operands must be numbers"
    let r ← evaluateNode context right
    let rn ← asNumber r "Modulo operands must be numbers"
    if rn = 0 then .error (.miniEval "Modulo by zero")
    else .ok (.num (jsRem ln rn))
  | .binary .pow left right => do
    let l ← evaluateNode context left
    let ln ← asNumber l "Exponentiation operands must be numbers"
    let r ← evaluateNode context right
    let rn ← asNumber r "Exponentiation operands must be numbers"
    let p ← jsPow ln rn
    .ok (.num p)
  | .call callee arguments =>
    match lookupAssoc context.functions callee with
    | some handler => do
      let values ← evalArgs context arguments
      .ok (handler values)
    | none => evalBuiltin context callee arguments

/-- Evaluation of a call's arguments, in order, for a user-supplied
function handler. -/
def evalArgs (context : EvaluationContext) : ExprList → Except JsError (List MiniValue)
  | .nil => .ok []
  | .cons a rest => do
    let v ← evaluateNode context a
    let vs ← evalArgs context rest
    .ok (v :: vs)

/-- Fold of the `MIN` builtin over the remaining arguments.  The source
starts the fold at positive infinity; over the rationals this equals
starting at the first argument's value, which is how the fold is seeded
here. -/
def evalMinFold (context : EvaluationContext) : ExprList → Rat → Except JsError Rat
  | .nil, acc => .ok acc
  | .cons a rest, acc => do
    let v ← evaluateNode context a
    let n ← asNumber v "MIN arguments must be numbers"
    evalMinFold context rest (if n < acc then n else acc)

/-- Fold of the `MAX` builtin, seeded like `evalMinFold`. -/
def evalMaxFold (context : EvaluationContext) : ExprList → Rat → Except JsError Rat
  | .nil, acc => .ok acc
  | .cons a rest, acc => do
    let v ← evaluateNode context a
    let n ← asNumber v "MAX arguments must be numbers"
    evalMaxFold context rest (if acc < n then n else acc)

/-- Builtin function table (`builtinFunctions`), keyed on the callee name;
unknown names fail with the unknown-function evaluation error. -/
def evalBuiltin (context : EvaluationContext) (name : String) (args : ExprList) :
    Except JsError MiniValue :=
  if name = "IF" then
    match args with
    | .cons c (.cons a (.cons b .nil)) => do
      let condition ← evaluateNode context c
      if truthy condition then evaluateNode context a else evaluateNode context b
    | _ => .error (.miniEval "IF expects exactly three arguments")
  else if name = "MIN" then
    match args with
    | .nil => .error (.miniEval "MIN expects at least one argument")
    | .cons a rest => do
      let v0 ← evaluateNode context a
      let v ← asNumber v0 "MIN arguments must be numbers"
      let m ← evalMinFold context rest v
      .ok (.num m)
  else if name = "MAX" then
    match args with
    | .nil => .error (.miniEval "MAX expects at least one argument")
    | .cons a rest => do
      let v0 ← evaluateNode context a
      let v ← asNumber v0 "MAX arguments must be numbers"
      let m ← evalMaxFold context rest v
      .ok (.num m)
  else if name = "CLAMP" then
    match args with
    | .cons v (.cons lo (.cons hi .nil)) => do
      let value0 ← evaluateNode context v
      let value ← asNumber value0 "CLAMP value must be a number"
      let mn0 ← evaluateNode context lo
      let mn ← asNumber mn0 "CLAMP minimum must be a number"
      let mx0 ← evaluateNode context hi
      let mx ← asNumber mx0 "CLAMP maximum must be a number"
      if mn > mx then .error (.miniEval "CLAMP minimum cannot exceed maximum")
      else .ok (.num (min (max value mn) mx))
    | _ => .error (.miniEval "CLAMP expects exactly three arguments")
  else if name = "ABS" then
    match args with
    | .cons a .nil => do
      let v0 ← evaluateNode context a
      let v ← asNumber v0 "ABS argument must be a number"
      .ok (.num |v|)
    | _ => .error (.miniEval "ABS expects exactly one argument")
  else if name = "FLOOR" then
    match args with
    | .cons a .nil => do
      let v0 ← evaluateNode context a
      let v ← asNumber v0 "FLOOR argument must be a number"
      .ok (.num (v.floor : Rat))
    | _ => .error (.miniEval "FLOOR expects exactly one argument")
  else if name = "CEIL" then
    match args with
    | .cons a .nil => do
      let v0 ← evaluateNode context a
      let v ← asNumber v0 "CEIL argument must be a number"
      .ok (.num (v.ceil : Rat))
    | _ => .error (.miniEval "CEIL expects exactly one argument")
  else if name = "ROUND" then
    match args with
    | .cons a .nil => do
      let v0 ← evaluateNode context a
      let v ← asNumber v0 "ROUND value must be a number"
      .ok (.num (jsRound v : Rat))
    | .cons a (.cons p .nil) => do
      let v0 ← evaluateNode context a
      let v ← asNumber v0 "ROUND value must be a number"
      let precision0 ← evaluateNode context p
      let precision ← asNumber precision0 "ROUND precision must be a number"
      let factor ← jsPow 10 precision
      .ok (.num ((jsRound (v * factor) : Rat) / factor))
    | _ => .error (.miniEval "ROUND expects one or two arguments")
  else if name = "D6" then do
    let _count ← match args with
      | .nil => pure (1 : Rat)
      | .cons a _ => do
        let v0 ← evaluateNode context a
        asNumber v0 "D6 argument must be a number"
    .error (.miniEval "Dice functions require an RNG in the evaluation context")
  else if name = "D" then
    match args with
    | .nil => .error (.miniEval "D expects at least one argument")
    | .cons a rest => do
      let _sides0 ← evaluateNode context a
      let _sides ← asNumber _sides0 "D sides must be a number"
      let _count ← match rest with
        | .nil => pure (1 : Rat)
        | .cons b _ => do
        let v0 ← evaluateNode context b
        asNumber v0 "D count must be a number"
      .error (.miniEval "Dice functions require an RNG in the evaluation context")
  else .error (.miniEval ("Unknown function " ++ sq ++ name ++ sq))

end

/-- Function `evaluateExpression(compiled, context)`. -/

def evaluateExpression (compiled : CompiledExpression) (context : EvaluationContext) :
    Except JsError MiniValue :=
  evaluateNode context compiled.ast

mutual

/-- Function `listIdentifiers(node, identifiers)`: collects the names of the
`Identifier` nodes of an expression into a set; the callee of a call is not
visited, only its arguments are. -/
def listIdentifiers : Expr → Finset String → Finset String
  | .identifier name, identifiers => insert name identifiers
  | .unary _ argument, identifiers => listIdentifiers argument identifiers
  | .binary _ left right, identifiers =>
    listIdentifiers right (listIdentifiers left identifiers)
  | .call _ arguments, identifiers => listIdentifiersList arguments identifiers
  | .numberLiteral _, identifiers => identifiers
  | .booleanLiteral _, identifiers => identifiers
  | .nullLiteral, identifiers => identifiers

/-- Fold of `listIdentifiers` over a call's arguments (the
`arguments.forEach` of the source). -/
def listIdentifiersList : ExprList → Finset String → Finset String
  | .nil, identifiers => identifiers
  | .cons a rest, identifiers => listIdentifiersList rest (listIdentifiers a identifiers)

end

/-! ## Session engine data model (`types.ts`, `session.ts`) -/

/-- Resource definition (`ResourceDefinition`); the unused `description`
field is omitted. -/

structure ResourceDefinition where
  id : String
  label : String
  initial : Rat
  min : Option Rat := none
  max : Option Rat := none
deriving DecidableEq

/-- Dice definition (`DiceDefinition`); the schema validator enforces that
`sides` and `count` are integers with `sides ≥ 2` and `count ≥ 1`, so they
are embedded as naturals. -/

structure DiceDefinition where
  id : String
  label : String
  sides : Nat
  count : Nat
deriving DecidableEq

/-- Compiled action effect (`CompiledActionEffect`); the optional `clamp`
flag defaults to the falsy `false`. -/

structure CompiledActionEffect where
  resource : String
  expression : String
  clamp : Bool := false
  ast : CompiledExpression

/-- Compiled action (`CompiledAction`); the unused `description` field is
omitted.  The schema validator enforces an integral `priority`, kept as the
JavaScript number type `Rat`. -/

structure CompiledAction where
  id : String
  label : String
  priority : Rat
  conditionAst : Option CompiledExpression := none
  effects : List CompiledActionEffect
  oncePerTurn : Bool := false

/-- Threshold comparison operators of a `resourceThreshold` end condition. -/

inductive ComparisonOp where
  | gt | ge | lt | le | eq | ne
deriving DecidableEq

/-- End condition (`EndConditionDefinition`). -/

inductive EndConditionDefinition where
  | turnLimit (limit : Rat)
  | resourceThreshold (resource : String) (comparison : ComparisonOp) (value : Rat)

/-- Turn structure (`TurnStructureDefinition`). -/

structure TurnStructureDefinition where
  limit : Rat

/-- Compiled scoring definition. -/

structure CompiledScoring where
  total : CompiledExpression
  components : List (String × CompiledExpression) := []

/-- Compiled template (`CompiledTemplate`): the declarative template with
every expression pre-parsed plus the derived `resourceMap` index. -/

structure CompiledTemplate where
  id : String
  name : String
  version : String
  resources : List ResourceDefinition
  dice : List DiceDefinition
  actions : List CompiledAction
  turn : TurnStructureDefinition
  scoring : CompiledScoring
  endConditions : List EndConditionDefinition
  resourceMap : List (String × ResourceDefinition)

/-- Game phases (`GamePhase`); the `end` phase is named `end_` because `end`
is reserved in Lean. -/

inductive GamePhase where
  | setup | roll | choose | apply | end_ | complete
deriving DecidableEq

/-- String form of a phase, as interpolated into error messages. -/

def phaseName : GamePhase → String
  | .setup => "setup"
  | .roll => "roll"
  | .choose => "choose"
  | .apply => "apply"
  | .end_ => "end"
  | .complete => "complete"

/-- Roll result (`RollResult`); the die values `nextInt(sides) + 1` are
naturals. -/

structure RollResult where
  diceId : String
  values : List Nat
  total : Nat
  highest : Nat
  lowest : Nat
deriving DecidableEq

/-- Maximum of the drawn values (`Math.max(...values)`); the validator
guarantees a nonempty list (`count ≥ 1`), on which the fold from the first
element agrees with the source. -/

def listMaxNat : List Nat → Nat
  | [] => 0
  | v :: rest => rest.foldl Nat.max v

/-- Minimum of the drawn values (`Math.min(...values)`), as `listMaxNat`. -/

def listMinNat : List Nat → Nat
  | [] => 0
  | v :: rest => rest.foldl Nat.min v

/-- Game events (`GameEvent`).  Each source event also carries a `phase`
string that is a constant determined by the variant (`'setup'`, `'roll'`,
`'choose'`, `'apply'`, `'end'`, `'complete'`); it is omitted here. -/

inductive GameEvent where
  | setup (turn : Nat) (resources : List (String × Rat)) (timestamp : Nat)
  | roll (turn : Nat) (roll : RollResult) (timestamp : Nat)
  | choose (turn : Nat) (actionId : String) (timestamp : Nat)
  | apply (turn : Nat) (deltas : List (String × Rat)) (resulting : List (String × Rat))
      (timestamp : Nat)
  | endTurn (turn : Nat) (resources : List (String × Rat)) (timestamp : Nat)
  | complete (turn : Nat) (finalScore : Rat) (resources : List (String × Rat)) (timestamp : Nat)
deriving DecidableEq

/-- Timestamp carried by an event. -/

def GameEvent.timestamp : GameEvent → Nat
  | .setup _ _ ts => ts
  | .roll _ _ ts => ts
  | .choose _ _ ts => ts
  | .apply _ _ _ ts => ts
  | .endTurn _ _ ts => ts
  | .complete _ _ _ ts => ts

/-- Completed replay turn (`ReplayTurn`). -/

structure ReplayTurn where
  turn : Nat
  roll : RollResult
  actionId : String
  resources : List (String × Rat)
deriving DecidableEq

/-- The open replay-turn buffer (`Partial<ReplayTurn>`). -/

structure PartialReplayTurn where
  turn : Nat
  roll : Option RollResult := none
  actionId : Option String := none
  resources : Option (List (String × Rat)) := none
deriving DecidableEq

/-- Replay record (`ReplayRecord`). -/

structure ReplayRecord where
  templateId : String
  templateVersion : String
  seed : SerializedRngState
  turns : List ReplayTurn
  finalScore : Rat
deriving DecidableEq

/-- Session state: the fields of the `GameSession` class.  Resource
snapshots and the `deltas` record are association lists with unique keys in
insertion order, mirroring JavaScript object semantics. -/

structure SessionState where
  template : CompiledTemplate
  rng : RngState
  initialSeed : SerializedRngState
  phase : GamePhase
  turn : Nat
  resources : List (String × Rat)
  history : List GameEvent
  rollResult : Option RollResult
  chosenAction : Option CompiledAction
  replayTurns : List ReplayTurn
  currentReplayTurn : Option PartialReplayTurn
  finalScore : Option Rat
  timestampCounter : Nat

/-- JavaScript object property assignment `object[key] = value` on an
association list: overwrites in place, or appends a new key at the end. -/

def setAssoc {α : Type} : List (String × α) → String → α → List (String × α)
  | [], key, value => [(key, value)]
  | (k, v) :: rest, key, value =>
    if k = key then (k, value) :: rest else (k, v) :: setAssoc rest key value

/-- Constructor `new GameSession(template, {seed})` for an already compiled
template (the raw-template branch delegates to the template compiler, which
the claims do not exercise): normalize the seed, record the serialized seed
before any draw, initialize every resource, push the `setup` event with
timestamp 1, set phase `roll` and turn 1. -/

def GameSession.new (template : CompiledTemplate) (seed : Option SeedInput) :
    Except JsError SessionState :=
  match normalizeSeed seed with
  | .error e => .error e
  | .ok rng =>
    let resources := template.resources.foldl (fun acc r => setAssoc acc r.id r.initial) []
    .ok {
      template := template
      rng := rng
      initialSeed := serialize rng
      phase := .roll
      turn := 1
      resources := resources
      history := [GameEvent.setup 0 resources 1]
      rollResult := none
      chosenAction := none
      replayTurns := []
      currentReplayTurn := none
      finalScore := none
      timestampCounter := 1 }

/-- Method `createVariables()`: `turn`, every resource value, and — when a
roll is active — `roll_total`, `roll_high`, `roll_low` and `roll_<i>` per
die (1-indexed). -/

def addRollValueVars : List (String × MiniValue) → List Nat → Nat → List (String × MiniValue)
  | vars, [], _ => vars
  | vars, v :: rest, i =>
    addRollValueVars (setAssoc vars ("roll_" ++ toString (i + 1)) (.num v)) rest (i + 1)

/-- Method `createVariables()` (see `addRollValueVars`). -/

def createVariables (s : SessionState) : List (String × MiniValue) :=
  let vars : List (String × MiniValue) := [("turn", .num s.turn)]
  let vars := s.resources.foldl (fun acc p => setAssoc acc p.1 (.num p.2)) vars
  match s.rollResult with
  | none => vars
  | some roll =>
    let vars := setAssoc vars "roll_total" (.num roll.total)
    let vars := setAssoc vars "roll_high" (.num roll.highest)
    let vars := setAssoc vars "roll_low" (.num roll.lowest)
    addRollValueVars vars roll.values 0

/-- Message of the `ensurePhase` error, interpolating the current and the
expected phase. -/

def phaseMismatchMessage (current expected : GamePhase) : String :=
  "Cannot perform action in phase " ++ sq ++ phaseName current ++ sq ++
    ". Expected " ++ sq ++ phaseName expected ++ sq ++ "."

/-- Dice loop of `roll()`: `count` draws of `nextInt(sides) + 1`, threading
the RNG; a failing draw leaves the RNG advanced past the successful draws,
as in the source. -/

def rollDiceValues (fuel sides : Nat) : Nat → RngState → Except JsError (List Nat) × RngState
  | 0, rng => (.ok [], rng)
  | n + 1, rng =>
    match nextInt fuel (sides : Rat) rng with
    | (.error e, rng2) => (.error e, rng2)
    | (.ok v, rng2) =>
      match rollDiceValues fuel sides n rng2 with
      | (.error e, rng3) => (.error e, rng3)
      | (.ok vs, rng3) => (.ok ((v + 1) :: vs), rng3)

/-- Method `roll()`: phase check, `count` draws from the first dice
definition, roll result, open replay-turn buffer, `roll` event, transition
to `choose`.  The `dice[0]` access on an empty dice list is the source's
`TypeError` crash. -/

def GameSession.roll (fuel : Nat) (s : SessionState) :
    Except JsError RollResult × SessionState :=
  if s.phase ≠ .roll then
    (.error (.generic (phaseMismatchMessage s.phase .roll)), s)
  else
    match s.template.dice.head? with
    | none => (.error (.generic "TypeError: dice[0] is undefined"), s)
    | some dice =>
      match rollDiceValues fuel dice.sides dice.count s.rng with
      | (.error e, rng) => (.error e, { s with rng := rng })
      | (.ok values, rng) =>
        let roll : RollResult := {
          diceId := dice.id
          values := values
          total := values.foldl (· + ·) 0
          highest := listMaxNat values
          lowest := listMinNat values }
        (.ok roll, { s with
          rng := rng
          rollResult := some roll
          phase := .choose
          currentReplayTurn := some { turn := s.turn, roll := some roll }
          history := s.history ++ [GameEvent.roll s.turn roll (s.timestampCounter + 1)]
          timestampCounter := s.timestampCounter + 1 })

/-- Condition filter of `listAvailableActions()` over the template actions,
in declaration order. -/

def availableActionsLoop (s : SessionState) :
    List CompiledAction → Except JsError (List CompiledAction)
  | [] => .ok []
  | action :: rest =>
    match action.conditionAst with
    | none => do
      let more ← availableActionsLoop s rest
      .ok (action :: more)
    | some conditionAst =>
      match evaluateExpression conditionAst { vars := createVariables s } with
      | .error e => .error e
      | .ok (.bool b) =>
        if b then do
          let more ← availableActionsLoop s rest
          .ok (action :: more)
        else availableActionsLoop s rest
      | .ok _ =>
        .error (.miniEval ("Condition for action " ++ sq ++ action.id ++ sq ++
          " must evaluate to a boolean"))

/-- Method `listAvailableActions()`: empty before the first roll of a turn;
otherwise every action whose condition is absent or evaluates to `true`; a
non-boolean condition value is a fatal evaluation error. -/

def listAvailableActions (s : SessionState) : Except JsError (List CompiledAction) :=
  match s.rollResult with
  | none => .ok []
  | some _ => availableActionsLoop s s.template.actions

/-- Method `choose(actionId)`: phase check, fresh recomputation of the
available actions, lookup by id, store the chosen action, record it into
the open replay-turn buffer, `choose` event, transition to `apply`. -/

def GameSession.choose (actionId : String) (s : SessionState) :
    Except JsError CompiledAction × SessionState :=
  if s.phase ≠ .choose then
    (.error (.generic (phaseMismatchMessage s.phase .choose)), s)
  else
    match listAvailableActions s with
    | .error e => (.error e, s)
    | .ok actions =>
      match actions.find? (fun candidate => candidate.id = actionId) with
      | none =>
        (.error (.generic ("Action " ++ sq ++ actionId ++ sq ++
          " is not available during turn " ++ toString s.turn)), s)
      | some action =>
        (.ok action, { s with
          chosenAction := some action
          phase := .apply
          currentReplayTurn := match s.currentReplayTurn with
            | some t => some { t with actionId := some action.id }
            | none => none
          history := s.history ++ [GameEvent.choose s.turn action.id (s.timestampCounter + 1)]
          timestampCounter := s.timestampCounter + 1 })

/-- Outcome returned by `apply()` (`ApplyOutcome`). -/

structure ApplyOutcome where
  deltas : List (String × Rat)
  resulting : List (String × Rat)
deriving DecidableEq

/-- Effect loop of `applyChosenAction()`: evaluates every effect in
declaration order against the running `variables`/`resulting` views, so
later effects see earlier effects of the same call; checks numericness, the
resource index, the declared minimum, and the declared maximum (with the
`clamp` cap).  All work happens on the loop's own accumulators — nothing is
committed on failure.  A resource present in `resourceMap` is always present
in the session snapshot (both are initialized from `template.resources`), so
the impossible missing-snapshot case is mapped to an error.  JavaScript
formats the interpolated bound with number formatting; the rational's
string form is used here. -/

def applyEffectsLoop (actionId : String) (resourceMap : List (String × ResourceDefinition)) :
    List CompiledActionEffect → List (String × Rat) → List (String × Rat) →
      List (String × MiniValue) → Except JsError (List (String × Rat) × List (String × Rat))
  | [], deltas, resulting, _ => .ok (deltas, resulting)
  | effect :: rest, deltas, resulting, vars =>
    match evaluateExpression effect.ast { vars := vars } with
    | .error e => .error e
    | .ok (.num value) =>
      match lookupAssoc resourceMap effect.resource with
      | none =>
        .error (.generic ("Unknown resource " ++ sq ++ effect.resource ++ sq ++
          " referenced by action " ++ sq ++ actionId ++ sq))
      | some definition =>
        match lookupAssoc resulting effect.resource with
        | none => .error (.generic "resource missing from snapshot")
        | some previous =>
          let updated := previous + value
          if (match definition.min with
              | some mn => decide (updated < mn)
              | none => false) = true then
            .error (.generic ("Resource " ++ sq ++ effect.resource ++ sq ++
              " cannot drop below " ++ (match definition.min with
                | some mn => toString mn
                | none => "")))
          else
            match definition.max with
            | some mx =>
              if updated > mx then
                if effect.clamp then
                  applyEffectsLoop actionId resourceMap rest
                    (setAssoc deltas effect.resource (mx - previous))
                    (setAssoc resulting effect.resource mx)
                    (setAssoc vars effect.resource (.num mx))
                else
                  .error (.generic ("Resource " ++ sq ++ effect.resource ++ sq ++
                    " cannot exceed " ++ toString mx))
              else
                applyEffectsLoop actionId resourceMap rest
                  (setAssoc deltas effect.resource
                    ((lookupAssoc deltas effect.resource).getD 0 + value))
                  (setAssoc resulting effect.resource updated)
                  (setAssoc vars effect.resource (.num updated))
            | none =>
              applyEffectsLoop actionId resourceMap rest
                (setAssoc deltas effect.resource
                  ((lookupAssoc deltas effect.resource).getD 0 + value))
                (setAssoc resulting effect.resource updated)
                (setAssoc vars effect.resource (.num updated))
    | .ok _ =>
      .error (.miniEval ("Effect for resource " ++ sq ++ effect.resource ++ sq ++
        " must evaluate to a number"))

/-- Method `applyChosenAction()`: runs the effect loop on a scratch copy of
the resources and commits it to the session only on full success. -/

def GameSession.applyChosenAction (s : SessionState) :
    Except JsError ApplyOutcome × SessionState :=
  match s.chosenAction with
  | none => (.error (.generic "No action has been chosen."), s)
  | some action =>
    match applyEffectsLoop action.id s.template.resourceMap action.effects [] s.resources
        (createVariables s) with
    | .error e => (.error e, s)
    | .ok (deltas, resulting) =>
      (.ok ⟨deltas, resulting⟩, { s with resources := resulting })

/-- Method `apply()`: phase check, effect application, `apply` event with
the per-resource deltas and resulting snapshot, replay-turn buffer update,
clear the chosen action, transition to `end`. -/

def GameSession.apply (s : SessionState) : Except JsError ApplyOutcome × SessionState :=
  if s.phase ≠ .apply then
    (.error (.generic (phaseMismatchMessage s.phase .apply)), s)
  else
    match GameSession.applyChosenAction s with
    | (.error e, s1) => (.error e, s1)
    | (.ok outcome, s1) =>
      (.ok outcome, { s1 with
        history := s1.history ++
          [GameEvent.apply s1.turn outcome.deltas s1.resources (s1.timestampCounter + 1)]
        timestampCounter := s1.timestampCounter + 1
        currentReplayTurn := match s1.currentReplayTurn with
          | some t => some { t with resources := some s1.resources }
          | none => none
        chosenAction := none
        phase := .end_ })

/-- Method `shouldEndGame()`: end conditions in declaration order.  A
threshold against a resource missing from the snapshot compares JavaScript
`undefined` with a number: every comparison is false except `!==`, which is
true. -/

def shouldEndGame (s : SessionState) : Bool :=
  s.template.endConditions.any fun condition =>
    match condition with
    | .turnLimit limit => decide ((s.turn : Rat) ≥ limit)
    | .resourceThreshold resource comparison value =>
      match lookupAssoc s.resources resource with
      | some v =>
        match comparison with
        | .gt => decide (v > value)
        | .ge => decide (v ≥ value)
        | .lt => decide (v < value)
        | .le => decide (v ≤ value)
        | .eq => decide (v = value)
        | .ne => decide (v ≠ value)
      | none =>
        match comparison with
        | .ne => true
        | _ => false

/-- Method `evaluateScore()`. -/

def evaluateScore (s : SessionState) : Except JsError Rat :=
  match evaluateExpression s.template.scoring.total { vars := createVariables s } with
  | .error e => .error e
  | .ok (.num total) => .ok total
  | .ok _ => .error (.miniEval "Scoring expression must resolve to a number")

/-- Method `finalizeTurnLog()`: appends the buffered turn to the replay
history only when roll, action id and resulting snapshot are all populated
(for the action id, populated means truthy: the empty string does not
count); always clears the buffer. -/

def finalizeTurnLog (s : SessionState) : SessionState :=
  match s.currentReplayTurn with
  | none => s
  | some t =>
    match t.roll, t.actionId, t.resources with
    | some roll, some actionId, some resources =>
      if actionId ≠ "" then
        { s with
          replayTurns := s.replayTurns ++ [⟨t.turn, roll, actionId, resources⟩]
          currentReplayTurn := none }
      else { s with currentReplayTurn := none }
    | _, _, _ => { s with currentReplayTurn := none }

/-- Method `endTurn()`: phase check, `endTurn` event, replay-turn
finalization; then either completion (final score, `complete` event, phase
`complete`) or the next turn (increment turn, clear the roll, phase
`roll`).  A failing score evaluation aborts after the `endTurn` event and
the log finalization, exactly as in the source. -/

def GameSession.endTurn (s : SessionState) : Except JsError Unit × SessionState :=
  if s.phase ≠ .end_ then
    (.error (.generic (phaseMismatchMessage s.phase .end_)), s)
  else
    let s1 := { s with
      history := s.history ++ [GameEvent.endTurn s.turn s.resources (s.timestampCounter + 1)]
      timestampCounter := s.timestampCounter + 1 }
    let s2 := finalizeTurnLog s1
    if shouldEndGame s2 then
      match evaluateScore s2 with
      | .error e => (.error e, s2)
      | .ok score =>
        (.ok (), { s2 with
          finalScore := some score
          phase := .complete
          history := s2.history ++
            [GameEvent.complete s2.turn score s2.resources (s2.timestampCounter + 1)]
          timestampCounter := s2.timestampCounter + 1 })
    else
      (.ok (), { s2 with
        turn := s2.turn + 1
        rollResult := none
        chosenAction := none
        phase := .roll })

/-- Read-only projection `getSnapshot()`; computing the available actions
can raise a condition-evaluation error. -/

structure GameSnapshot where
  template : CompiledTemplate
  phase : GamePhase
  turn : Nat
  resources : List (String × Rat)
  roll : Option RollResult
  availableActions : List CompiledAction

/-- Method `getSnapshot()`. -/

def getSnapshot (s : SessionState) : Except JsError GameSnapshot :=
  match listAvailableActions s with
  | .error e => .error e
  | .ok actions => .ok {
      template := s.template
      phase := s.phase
      turn := s.turn
      resources := s.resources
      roll := s.rollResult
      availableActions := actions }

/-- Decision policy context (`DecisionPolicyContext`). -/

structure DecisionPolicyContext where
  session : GameSnapshot
  actions : List CompiledAction

/-- Decision policy (`DecisionPolicy`): a pure function choosing an action
id. -/

def DecisionPolicy : Type := DecisionPolicyContext → String

/-- Method `getReplay()`: `none` until the final score is set. -/

def getReplay (s : SessionState) : Option ReplayRecord :=
  match s.finalScore with
  | none => none
  | some finalScore => some {
      templateId := s.template.id
      templateVersion := s.template.version
      seed := s.initialSeed
      turns := s.replayTurns
      finalScore := finalScore }

/-- Method `isComplete()`. -/

def isComplete (s : SessionState) : Bool := s.phase = .complete

/-- One iteration of the `autoplay` while-loop body: each of the four phase
blocks runs when the (possibly just updated) phase matches, and any engine
error aborts the iteration. -/

def autoplayStep (fuel : Nat) (policy : DecisionPolicy) (s0 : SessionState) :
    Except JsError Unit × SessionState :=
  let step1 : Except JsError Unit × SessionState :=
    if s0.phase = GamePhase.roll then
      match GameSession.roll fuel s0 with
      | (.error e, s) => ((.error e : Except JsError Unit), s)
      | (.ok _, s) => (.ok (), s)
    else (.ok (), s0)
  match step1 with
  | (.error e, s1) => (.error e, s1)
  | (.ok _, s1) =>
    let step2 : Except JsError Unit × SessionState :=
      if s1.phase = GamePhase.choose then
        match getSnapshot s1 with
        | .error e => ((.error e : Except JsError Unit), s1)
        | .ok snapshot =>
          match GameSession.choose (policy ⟨snapshot, snapshot.availableActions⟩) s1 with
          | (.error e, s) => (.error e, s)
          | (.ok _, s) => (.ok (), s)
      else (.ok (), s1)
    match step2 with
    | (.error e, s2) => (.error e, s2)
    | (.ok _, s2) =>
      let step3 : Except JsError Unit × SessionState :=
        if s2.phase = GamePhase.apply then
          match GameSession.apply s2 with
          | (.error e, s) => ((.error e : Except JsError Unit), s)
          | (.ok _, s) => (.ok (), s)
        else (.ok (), s2)
      match step3 with
      | (.error e, s3) => (.error e, s3)
      | (.ok _, s3) =>
        if s3.phase = GamePhase.end_ then GameSession.endTurn s3
        else (.ok (), s3)

/-- The `while (!session.isComplete())` driver of `autoplay`, fueled. -/

def autoplayLoop (fuel : Nat) (policy : DecisionPolicy) :
    Nat → SessionState → Except JsError SessionState
  | 0, _ => .error (.generic "autoplay fuel exhausted")
  | iterations + 1, s =>
    if isComplete s then .ok s
    else
      match autoplayStep fuel policy s with
      | (.error e, _) => .error e
      | (.ok _, s2) => autoplayLoop fuel policy iterations s2

/-- Function `autoplay(template, policy, {seed})`: drives a fresh session to
completion and returns its replay record; any engine error aborts the call. -/

def autoplay (fuel : Nat) (template : CompiledTemplate) (policy : DecisionPolicy)
    (seed : Option SeedInput) : Except JsError ReplayRecord :=
  match GameSession.new template seed with
  | .error e => .error e
  | .ok s0 =>
    match autoplayLoop fuel policy fuel s0 with
    | .error e => .error e
    | .ok s =>
      match getReplay s with
      | some replay => .ok replay
      | none => .error (.generic "Replay generation failed")

/-! ## Sample data for concrete witnesses -/

/-- Resource `ore`, initial 0, no bounds. -/

def sampleResource : ResourceDefinition :=
  { id := "ore", label := "Ore", initial := 0 }

/-- A 2d6 dice definition. -/

def sampleDice : DiceDefinition :=
  { id := "d6", label := "Dice", sides := 6, count := 2 }

/-- Always-available action adding `roll_total` to `ore`. -/

def sampleAction : CompiledAction :=
  { id := "gain", label := "Gain", priority := 1,
    effects := [{ resource := "ore", expression := "roll_total",
                  ast := ⟨"roll_total", .identifier "roll_total"⟩ }] }

/-- A minimal compiled template: one resource, 2d6, one action, a two-turn
limit, scoring `ore`. -/

def sampleTemplate : CompiledTemplate :=
  { id := "mini", name := "Mini", version := "1.0.0",
    resources := [sampleResource], dice := [sampleDice], actions := [sampleAction],
    turn := ⟨2⟩,
    scoring := { total := ⟨"ore", .identifier "ore"⟩ },
    endConditions := [.turnLimit 2],
    resourceMap := [("ore", sampleResource)] }

/-- Constant policy always choosing the `gain` action. -/

def samplePolicy : DecisionPolicy := fun _ => "gain"

/-- Concrete pair seed `(1, 2)`. -/

def sampleSeed : SeedInput := .pair 1 2

/-- The replay record produced by `autoplay` on the sample template with
seed `(1, 2)`: rolls `[6, 5]` then `[2, 4]`, score 17. -/

def sampleReplay : ReplayRecord :=
  { templateId := "mini", templateVersion := "1.0.0",
    seed := ⟨"xorshift128+", ("0x0000000000000001", "0x0000000000000002")⟩,
    turns := [
      ⟨1, ⟨"d6", [6, 5], 11, 6, 5⟩, "gain", [("ore", 11)]⟩,
      ⟨2, ⟨"d6", [2, 4], 6, 4, 2⟩, "gain", [("ore", 17)]⟩],
    finalScore := 17 }

/-! ## Expression-language claims (C8) -/

/-! ## Identifier extraction claim (C10) -/

mutual

/-- Claim-side specification for C10: the name `n` occurs as an
`Identifier` node of the expression outside the callee position of any
`CallExpression` (the callee is not a position of this AST embedding; a
call contributes only its arguments). -/
def mentionsIdent (n : String) : Expr → Prop
  | .identifier m => m = n
  | .unary _ argument => mentionsIdent n argument
  | .binary _ left right => mentionsIdent n left ∨ mentionsIdent n right
  | .call _ arguments => mentionsIdentList n arguments
  | .numberLiteral _ => False
  | .booleanLiteral _ => False
  | .nullLiteral => False

/-- Disjunction of `mentionsIdent` over a call's arguments. -/
def mentionsIdentList (n : String) : ExprList → Prop
  | .nil => False
  | .cons a rest => mentionsIdent n a ∨ mentionsIdentList n rest

end

/-- Session state right after constructing the sample session with seed
`(1, 2)`. -/

def sampleInitialState : SessionState :=
  { template := sampleTemplate
    rng := ⟨1, 2⟩
    initialSeed := ⟨"xorshift128+", ("0x0000000000000001", "0x0000000000000002")⟩
    phase := .roll
    turn := 1
    resources := [("ore", 0)]
    history := [GameEvent.setup 0 [("ore", 0)] 1]
    rollResult := none
    chosenAction := none
    replayTurns := []
    currentReplayTurn := none
    finalScore := none
    timestampCounter := 1 }

/-- The sample initial state with the phase forced to `complete`, where all
four phase-guarded operations are out of phase. -/

def sampleCompleteState : SessionState :=
  { sampleInitialState with phase := .complete }

/-- Resource with declared bounds `[0, 10]`, for the bound-check claims. -/

def boundedResource : ResourceDefinition :=
  { id := "ore", label := "Ore", initial := 0, min := some 0, max := some 10 }

/-- Action whose single effect drives `ore` by `0 - 5`, violating the
declared minimum when `ore = 0`. -/

def drainAction : CompiledAction :=
  { id := "drain", label := "Drain", priority := 1,
    effects := [{ resource := "ore", expression := "0 - 5",
                  ast := ⟨"0 - 5", .binary .sub (.numberLiteral 0) (.numberLiteral 5)⟩ }] }

/-- Template over the bounded resource with the draining action. -/

def boundedTemplate : CompiledTemplate :=
  { id := "bounded", name := "Bounded", version := "1.0.0",
    resources := [boundedResource], dice := [sampleDice], actions := [drainAction],
    turn := ⟨2⟩,
    scoring := { total := ⟨"ore", .identifier "ore"⟩ },
    endConditions := [.turnLimit 2],
    resourceMap := [("ore", boundedResource)] }

/-- A session over `boundedTemplate` in phase `apply` with `drain` chosen:
applying it undercuts the minimum and must fail atomically. -/

def sampleApplyFailState : SessionState :=
  { template := boundedTemplate
    rng := ⟨1, 2⟩
    initialSeed := ⟨"xorshift128+", ("0x0000000000000001", "0x0000000000000002")⟩
    phase := .apply
    turn := 1
    resources := [("ore", 0)]
    history := [GameEvent.setup 0 [("ore", 0)] 1]
    rollResult := some ⟨"d6", [6, 5], 11, 6, 5⟩
    chosenAction := some drainAction
    replayTurns := []
    currentReplayTurn := some ⟨1, some ⟨"d6", [6, 5], 11, 6, 5⟩, some "drain", none⟩
    finalScore := none
    timestampCounter := 3 }

/-! ## Phase-guard claim (C7) -/

/-! ## Apply atomicity claim (C5) -/

/-! ## Clamp claim (C6) -/

/-- The clamped sample effect adding 9 to `ore`. -/

def clampEffect : CompiledActionEffect :=
  { resource := "ore", expression := "9", clamp := true, ast := ⟨"9", .numberLiteral 9⟩ }

/-- The same effect without the clamp marker. -/

def noClampEffect : CompiledActionEffect :=
  { resource := "ore", expression := "9", clamp := false, ast := ⟨"9", .numberLiteral 9⟩ }

/-! ## Event log claim (C9) -/

/-- Log invariant: the timestamps of the event log are exactly `1, 2, …, n`
in order, and the timestamp counter equals the log length. -/

def logInv (s : SessionState) : Prop :=
  s.history.map GameEvent.timestamp = List.range' 1 s.history.length ∧
  s.timestampCounter = s.history.length

/-! ## Autoplay determinism claim (C1) -/

/-! ## Theorems -/

/-- Mask by `UINT64_MASK` is reduction mod `2 ^ 64`. -/
theorem toUint64_eq_mod (value : Nat) : toUint64 value = value % 2 ^ 64 :=
  Nat.and_pow_two_sub_one_eq_mod value 64

/-- Numeral form of the masking identity, for rewriting goals in which the
mask and modulus have been evaluated to literals. -/
theorem and_mask64 (x : Nat) :
    x &&& 18446744073709551615 = x % 18446744073709551616 := by
  have h := Nat.and_pow_two_sub_one_eq_mod x 64
  norm_num at h
  exact h

/-- The 64-bit state words of the RNG stay below `2 ^ 64`; truncation is then
the identity. -/
theorem toUint64_of_lt {value : Nat} (h : value < 2 ^ 64) : toUint64 value = value := by
  rw [toUint64_eq_mod]; exact Nat.mod_eq_of_lt h

/-- Claim C2 as frozen is false on the code: at state `(0, 1)` the code
returns the draw `2` with new state `(1, 1)`, while the claimed step (which
scrambles `word1` instead of `word0` and adds old `word0` instead of old
`word1`) would return `8388673`. -/
theorem nextBigInt_claimC2_counterexample :
    nextBigInt ⟨0, 1⟩ ≠ nextBigIntClaimC2 ⟨0, 1⟩ ∧
    nextBigInt ⟨0, 1⟩ = (2, ⟨1, 1⟩) ∧
    nextBigIntClaimC2 ⟨0, 1⟩ = (8388673, ⟨1, 8388673⟩) := by
  refine ⟨?_, by decide, by decide⟩
  decide

/-- Claim C2, amended: for every RNG state, `nextBigInt` performs the
xorshift128+ step that scrambles `word0` and XORs with `word1` — `t = word0 ^
(word0 << 23 mod 2^64)`, `t ^= t >> 17`, `t ^= word1`, `t ^= word1 >> 26` —
with new state `(old word1, t mod 2^64)` and returned value
`(new_state1 + old word1) mod 2^64`. -/
theorem nextBigInt_eq_amendedC2 (s : RngState) : nextBigInt s = nextBigIntAmendedC2 s := by
  simp only [nextBigInt, nextBigIntAmendedC2, toUint64, UINT64_MASK]
  norm_num [and_mask64]

theorem stateAfterDraws_shift (rng : RngState) (n : Nat) :
    stateAfterDraws rng (n + 1) = stateAfterDraws (nextBigInt rng).2 n := by
  induction n with
  | zero => rfl
  | succ n ih => rw [stateAfterDraws, ih, stateAfterDraws]

theorem drawValue_shift (rng : RngState) (n : Nat) :
    drawValue rng (n + 1) = drawValue (nextBigInt rng).2 n := by
  rw [drawValue, stateAfterDraws_shift, drawValue]

/-- Success characterization of the rejection loop: a successful `nextIntAux`
run returns the first draw below the threshold, reduced mod `bound`, leaving
the RNG just past that draw. -/
theorem nextIntAux_ok_iff (bound threshold : Nat) :
    ∀ (fuel : Nat) (rng : RngState) (v : Nat) (s' : RngState),
      nextIntAux bound threshold fuel rng = (.ok v, s') ↔
        ∃ i, i < fuel ∧ (∀ j, j < i → threshold ≤ drawValue rng j) ∧
          drawValue rng i < threshold ∧ v = drawValue rng i % bound ∧
          s' = stateAfterDraws rng (i + 1) := by
  intro fuel
  induction fuel with
  | zero =>
    intro rng v s'
    simp [nextIntAux]
  | succ fuel ih =>
    intro rng v s'
    simp only [nextIntAux]
    by_cases hacc : (nextBigInt rng).1 < threshold
    · rw [if_pos hacc]
      constructor
      · rintro h
        injection h with h1 h2
        injection h1 with h1
        exact ⟨0, Nat.succ_pos _, fun j hj => absurd hj (Nat.not_lt_zero j),
          hacc, h1.symm, h2.symm⟩
      · rintro ⟨i, _, hrej, hi, hv, hs⟩
        have hi0 : i = 0 := by
          by_contra hne
          exact absurd hacc (Nat.not_lt.mpr (hrej 0 (Nat.pos_of_ne_zero hne)))
        subst hi0
        subst hv
        subst hs
        rfl
    · rw [if_neg hacc]
      rw [ih (nextBigInt rng).2 v s']
      constructor
      · rintro ⟨i, hif, hrej, hi, hv, hs⟩
        refine ⟨i + 1, by omega, ?_, ?_, ?_, ?_⟩
        · intro j hj
          match j with
          | 0 => exact Nat.not_lt.mp hacc
          | j + 1 => rw [drawValue_shift]; exact hrej j (by omega)
        · rwa [drawValue_shift]
        · rwa [drawValue_shift]
        · rw [stateAfterDraws_shift]; exact hs
      · rintro ⟨i, hif, hrej, hi, hv, hs⟩
        match i with
        | 0 => exact absurd hi hacc
        | i + 1 =>
          refine ⟨i, by omega, ?_, ?_, ?_, ?_⟩
          · intro j hj
            rw [← drawValue_shift]; exact hrej (j + 1) (by omega)
          · rwa [drawValue_shift] at hi
          · rwa [drawValue_shift] at hv
          · rwa [stateAfterDraws_shift] at hs

/-- Claim C3 as frozen is false on the code: with `maxExclusive = 2` the
code's threshold is `2 ^ 64 − 2`, so the draw `2 ^ 64 − 2` at state
`(567523854138728449, 0)` is rejected and the second draw yields `1`, while
the claimed threshold `2 ^ 64 − (2 ^ 64 mod 2) = 2 ^ 64` would accept the
first draw and yield `0`. -/
theorem nextInt_claimC3_counterexample :
    (nextInt 5 2 ⟨567523854138728449, 0⟩).1 = .ok 1 ∧
    (nextIntClaimC3 5 2 ⟨567523854138728449, 0⟩).1 = .ok 0 ∧
    drawValue ⟨567523854138728449, 0⟩ 0 = 2 ^ 64 - 2 := by
  refine ⟨by decide, by decide, by decide⟩

/-- Claim C3, amended: an invalid bound (non-integral or non-positive) fails
with a range error and leaves the RNG state unchanged; a successful call
returns a value in `[0, maxExclusive)`, obtained by rejection sampling that
rejects a 64-bit draw exactly when it is at least
`(2 ^ 64 − 1) − ((2 ^ 64 − 1) mod maxExclusive)` (the code's threshold, equal
to the claimed `2 ^ 64 − (2 ^ 64 mod maxExclusive)` whenever `maxExclusive`
does not divide `2 ^ 64`), returning the first accepted draw modulo
`maxExclusive`. -/
theorem nextInt_spec (fuel : Nat) (maxExclusive : Rat) (rng : RngState) :
    (¬(maxExclusive.den = 1 ∧ 0 < maxExclusive) →
      nextInt fuel maxExclusive rng =
        (.error (.range "maxExclusive must be a positive integer"), rng)) ∧
    (∀ v s', nextInt fuel maxExclusive rng = (.ok v, s') →
      (v : Rat) < maxExclusive ∧
      (∃ i, i < fuel ∧
        (∀ j, j < i →
          UINT64_MASK - UINT64_MASK % maxExclusive.num.toNat ≤ drawValue rng j) ∧
        drawValue rng i < UINT64_MASK - UINT64_MASK % maxExclusive.num.toNat ∧
        v = drawValue rng i % maxExclusive.num.toNat ∧
        s' = stateAfterDraws rng (i + 1))) := by
  constructor
  · intro h
    have hcond : maxExclusive.den ≠ 1 ∨ maxExclusive ≤ 0 := by
      rcases not_and_or.mp h with h' | h'
      · exact Or.inl h'
      · exact Or.inr (not_lt.mp h')
    rw [nextInt, if_pos hcond]
  · intro v s' h
    by_cases hvalid : maxExclusive.den ≠ 1 ∨ maxExclusive ≤ 0
    · rw [nextInt, if_pos hvalid] at h
      exact absurd h (by simp)
    · push_neg at hvalid
      obtain ⟨hden, hpos⟩ := hvalid
      rw [nextInt, if_neg (by push_neg; exact ⟨hden, hpos⟩)] at h
      rw [show ((let bound := maxExclusive.num.toNat
          let threshold := UINT64_MASK - UINT64_MASK % bound
          nextIntAux bound threshold fuel rng)) =
          nextIntAux maxExclusive.num.toNat
            (UINT64_MASK - UINT64_MASK % maxExclusive.num.toNat) fuel rng from rfl] at h
      rw [nextIntAux_ok_iff] at h
      obtain ⟨i, hif, hrej, hi, hv, hs⟩ := h
      have hnum : (0 : Int) < maxExclusive.num := Rat.num_pos.mpr hpos
      have hbound : 0 < maxExclusive.num.toNat := by omega
      refine ⟨?_, i, hif, hrej, hi, hv, hs⟩
      have hvlt : v < maxExclusive.num.toNat := hv ▸ Nat.mod_lt _ hbound
      have : (maxExclusive.num : Rat) = maxExclusive := by
        conv_rhs => rw [← Rat.num_div_den maxExclusive]
        rw [hden]
        simp
      rw [← this]
      have : (v : Int) < maxExclusive.num := by omega
      exact_mod_cast this

/-- Witness: at bound 6 from state `(1, 2)` the first draw is accepted and
yields `5 < 6`; at the invalid bound 0 the call fails with the range error
and leaves the state `(1, 2)` untouched. -/
theorem nextInt_spec_witness :
    ((5 : Nat) : Rat) < 6 ∧
    nextInt 1 0 ⟨1, 2⟩ = (.error (.range "maxExclusive must be a positive integer"), ⟨1, 2⟩) :=
  ⟨((nextInt_spec 1 6 ⟨1, 2⟩).2 5 ⟨2, 8388675⟩ (by decide)).1,
   (nextInt_spec 1 0 ⟨1, 2⟩).1 (by decide)⟩

theorem hexCharVal_hexDigitChar {d : Nat} (h : d < 16) :
    hexCharVal (hexDigitChar d) = d := by
  interval_cases d <;> rfl

theorem parseHexFold_replicate_zero (k : Nat) (l : List Char) :
    (List.replicate k '0' ++ l).foldl (fun acc c => 16 * acc + hexCharVal c) 0 =
      l.foldl (fun acc c => 16 * acc + hexCharVal c) 0 := by
  induction k with
  | zero => rfl
  | succ k ih =>
    rw [List.replicate_succ, List.cons_append, List.foldl_cons]
    have h0 : 16 * 0 + hexCharVal '0' = 0 := rfl
    rw [h0, ih]

theorem parseHexFold_map_hexDigitChar (M : List Nat) (hM : ∀ d ∈ M, d < 16) :
    ∀ a : Nat, (M.map hexDigitChar).foldl (fun acc c => 16 * acc + hexCharVal c) a =
      M.foldl (fun acc d => 16 * acc + d) a := by
  induction M with
  | nil => intro a; rfl
  | cons d M ih =>
    intro a
    rw [List.map_cons, List.foldl_cons, List.foldl_cons,
      hexCharVal_hexDigitChar (hM d (List.mem_cons_self d M))]
    exact ih (fun e he => hM e (List.mem_cons_of_mem d he)) _

theorem foldl_reverse_eq_ofDigits (L : List Nat) :
    L.reverse.foldl (fun acc d => 16 * acc + d) 0 = Nat.ofDigits 16 L := by
  induction L with
  | nil => rfl
  | cons d T ih =>
    rw [List.reverse_cons, List.foldl_append, List.foldl_cons, List.foldl_nil, ih,
      Nat.ofDigits_cons]
    ring

/-- The fueled hexadecimal digit extraction computes `Nat.digits 16`. -/
theorem hexDigitsAux_eq_digits : ∀ (fuel n : Nat), n < fuel →
    hexDigitsAux fuel n = Nat.digits 16 n := by
  intro fuel
  induction fuel with
  | zero => intro n h; omega
  | succ fuel ih =>
    intro n h
    rw [hexDigitsAux]
    by_cases hn : n = 0
    · subst hn; simp
    · rw [if_neg hn, Nat.digits_def' (by norm_num) (Nat.pos_of_ne_zero hn),
        ih (n / 16) (by
          have := Nat.div_lt_self (Nat.pos_of_ne_zero hn) (by norm_num : 1 < 16)
          omega)]

/-- Hexadecimal serialization of a state word parses back to the word. -/
theorem parseHex_toHex (n : Nat) : parseHex (toHex n) = n := by
  have hdata : (toHex n).data =
      '0' :: 'x' :: (List.replicate (16 - ((hexDigitsAux (n + 1) n).reverse.map hexDigitChar).length) '0'
        ++ (hexDigitsAux (n + 1) n).reverse.map hexDigitChar) := rfl
  rw [parseHex, hdata, hexDigitsAux_eq_digits (n + 1) n (Nat.lt_succ_self n)]
  rw [show ∀ (a b : Char) (l : List Char), (a :: b :: l).drop 2 = l from fun a b l => rfl]
  rw [parseHexFold_replicate_zero]
  rw [List.map_reverse] at *
  rw [show ((Nat.digits 16 n).map hexDigitChar).reverse =
      ((Nat.digits 16 n).map hexDigitChar).reverse from rfl]
  rw [← List.map_reverse, parseHexFold_map_hexDigitChar _
    (fun d hd => Nat.digits_lt_base (by norm_num) (List.mem_reverse.mp hd)),
    foldl_reverse_eq_ofDigits, Nat.ofDigits_digits]

/-- Claim C4: deserializing a serialized RNG state restores the state word
for word, so the next draw of the restored RNG equals the next draw of the
original; and deserializing the all-zero serialized state yields `(0, 1)`.
The hypotheses describe exactly the states reachable by the RNG: both words
are 64-bit and never both zero. -/
theorem serialize_deserialize_roundtrip :
    (∀ s : RngState, s.state0 < 2 ^ 64 → s.state1 < 2 ^ 64 →
      ¬(s.state0 = 0 ∧ s.state1 = 0) →
      normalizeSeed (some (.serialized (serialize s))) = .ok s ∧
      ∀ t, normalizeSeed (some (.serialized (serialize s))) = .ok t →
        nextBigInt t = nextBigInt s) ∧
    normalizeSeed (some (.serialized
      ⟨"xorshift128+", ("0x0000000000000000", "0x0000000000000000")⟩)) = .ok ⟨0, 1⟩ := by
  constructor
  · intro s h0 h1 hz
    have hok : normalizeSeed (some (.serialized (serialize s))) = .ok s := by
      rw [normalizeSeed, serialize]
      rw [if_neg (by simp)]
      rw [show (⟨"xorshift128+", (toHex s.state0, toHex s.state1)⟩ :
          SerializedRngState).state = (toHex s.state0, toHex s.state1) from rfl]
      simp only [parseHex_toHex, toUint64_of_lt h0, toUint64_of_lt h1]
      rw [if_neg hz]
    exact ⟨hok, fun t ht => by rw [hok] at ht; injection ht with ht; rw [ht]⟩
  · decide

/-- Witness: the round trip at the concrete reachable state `(1, 2)`. -/
theorem serialize_deserialize_roundtrip_witness :
    normalizeSeed (some (.serialized (serialize ⟨1, 2⟩))) = .ok ⟨1, 2⟩ ∧
    nextBigInt ⟨1, 2⟩ = nextBigInt ⟨1, 2⟩ := by
  have h := serialize_deserialize_roundtrip.1 ⟨1, 2⟩ (by norm_num) (by norm_num)
    (by simp)
  exact ⟨h.1, h.2 ⟨1, 2⟩ h.1 ▸ rfl⟩

/-- One `jsPow` application at a natural exponent is exact monoid power. -/
theorem jsPow_natCast (a : Rat) (b : Nat) : jsPow a (b : Rat) = .ok (a ^ b) := by
  rw [jsPow, if_pos ⟨Rat.den_natCast b, by simp⟩]
  rw [Rat.num_natCast, Int.toNat_ofNat]

unseal Rat.add Rat.mul Rat.sub Rat.inv in
/-- Claim C8: `compile("1 + 2 * 3")` evaluates to 7 and `compile("(1+2)*3")`
to 9 with the empty context; `^` is parsed left-associatively, each `^`
consuming exactly one unary operand on its right, so a token stream
`a ^ b ^ c` parses to the left-nested tree `(a ^ b) ^ c`, which evaluates to
`(a ^ b) ^ c`; concretely `compile("2^3^2")` evaluates to 64, not 512. -/
theorem expr_precedence_and_pow_left_assoc :
    (parseExpression "1 + 2 * 3").bind (fun e => evaluateNode {} e) = .ok (.num 7) ∧
    (parseExpression "(1+2)*3").bind (fun e => evaluateNode {} e) = .ok (.num 9) ∧
    (∀ (fuel : Nat) (sa sb sc : String), 5 ≤ fuel →
      parseExponent fuel [Token.number sa, Token.operator "^", Token.number sb,
        Token.operator "^", Token.number sc, Token.eof] =
        .ok (.binary .pow (.binary .pow (.numberLiteral (parseNumber sa))
          (.numberLiteral (parseNumber sb))) (.numberLiteral (parseNumber sc)),
          [Token.eof])) ∧
    (∀ (a : Rat) (b c : Nat),
      evaluateNode {} (.binary .pow
          (.binary .pow (.numberLiteral a) (.numberLiteral (b : Rat)))
          (.numberLiteral (c : Rat))) = .ok (.num ((a ^ b) ^ c))) ∧
    (parseExpression "2^3^2").bind (fun e => evaluateNode {} e) = .ok (.num 64) := by
  refine ⟨by decide, by decide, ?_, ?_, by decide⟩
  · intro fuel sa sb sc hfuel
    obtain ⟨k, rfl⟩ : ∃ k, fuel = k + 5 := ⟨fuel - 5, by omega⟩
    rfl
  · intro a b c
    rfl

/-- Witness for the universal parts of C8 at fuel 5 and the numerals of
`2^3^2`. -/
theorem expr_precedence_and_pow_left_assoc_witness :
    parseExponent 5 [Token.number "2", Token.operator "^", Token.number "3",
      Token.operator "^", Token.number "2", Token.eof] =
      .ok (.binary .pow (.binary .pow (.numberLiteral (parseNumber "2"))
        (.numberLiteral (parseNumber "3"))) (.numberLiteral (parseNumber "2")),
        [Token.eof]) :=
  expr_precedence_and_pow_left_assoc.2.2.1 5 "2" "3" "2" (le_refl 5)

mutual

theorem mem_listIdentifiers : ∀ (e : Expr) (acc : Finset String) (n : String),
    n ∈ listIdentifiers e acc ↔ n ∈ acc ∨ mentionsIdent n e
  | .identifier name, acc, n => by
    simp only [listIdentifiers, mentionsIdent, Finset.mem_insert]
    constructor
    · rintro (h | h)
      · exact Or.inr h.symm
      · exact Or.inl h
    · rintro (h | h)
      · exact Or.inr h
      · exact Or.inl h.symm
  | .unary op argument, acc, n => by
    simp only [listIdentifiers, mentionsIdent, mem_listIdentifiers argument]
  | .binary op left right, acc, n => by
    simp only [listIdentifiers, mentionsIdent, mem_listIdentifiers right,
      mem_listIdentifiers left, or_assoc]
  | .call callee arguments, acc, n => by
    simp only [listIdentifiers, mentionsIdent, mem_listIdentifiersList arguments]
  | .numberLiteral v, acc, n => by
    simp [listIdentifiers, mentionsIdent]
  | .booleanLiteral v, acc, n => by
    simp [listIdentifiers, mentionsIdent]
  | .nullLiteral, acc, n => by
    simp [listIdentifiers, mentionsIdent]

theorem mem_listIdentifiersList : ∀ (l : ExprList) (acc : Finset String) (n : String),
    n ∈ listIdentifiersList l acc ↔ n ∈ acc ∨ mentionsIdentList n l
  | .nil, acc, n => by
    simp [listIdentifiersList, mentionsIdentList]
  | .cons a rest, acc, n => by
    simp only [listIdentifiersList, mentionsIdentList, mem_listIdentifiersList rest,
      mem_listIdentifiers a, or_assoc]

end

/-- Claim C10: `listIdentifiers` returns exactly the set of names of
`Identifier` nodes occurring outside the callee position of a
`CallExpression`: membership coincides with `mentionsIdent`; concretely, on
`FOO(x, y, x)` the result is the set `{x, y}` — the callee name `FOO` is not
included, duplicates are collapsed, and the result is a `Finset`, so order
is irrelevant. -/
theorem listIdentifiers_spec :
    (∀ (e : Expr) (n : String), n ∈ listIdentifiers e ∅ ↔ mentionsIdent n e) ∧
    listIdentifiers (.call "FOO" (.cons (.identifier "x") (.cons (.identifier "y")
      (.cons (.identifier "x") .nil)))) ∅ = {"x", "y"} ∧
    "FOO" ∉ listIdentifiers (.call "FOO" (.cons (.identifier "x") (.cons (.identifier "y")
      (.cons (.identifier "x") .nil)))) ∅ := by
  refine ⟨?_, by decide, by decide⟩
  intro e n
  rw [mem_listIdentifiers e ∅ n]
  simp

/-- Claim C7: each of the four phase-guarded operations, invoked outside its
required phase, fails with the phase-mismatch error and returns the session
state unchanged; the message interpolates both the current and the expected
phase; and a freshly constructed session is in phase `roll`, so `choose()`
before any `roll()` fails this way with the phase left at `roll`. -/
theorem phase_mismatch_spec (s : SessionState) (fuel : Nat) (actionId : String) :
    (s.phase ≠ .roll → GameSession.roll fuel s =
      (.error (.generic (phaseMismatchMessage s.phase .roll)), s)) ∧
    (s.phase ≠ .choose → GameSession.choose actionId s =
      (.error (.generic (phaseMismatchMessage s.phase .choose)), s)) ∧
    (s.phase ≠ .apply → GameSession.apply s =
      (.error (.generic (phaseMismatchMessage s.phase .apply)), s)) ∧
    (s.phase ≠ .end_ → GameSession.endTurn s =
      (.error (.generic (phaseMismatchMessage s.phase .end_)), s)) ∧
    (∀ current expected : GamePhase, ∃ pre mid post,
      phaseMismatchMessage current expected =
        pre ++ phaseName current ++ (mid ++ phaseName expected ++ post)) ∧
    (∀ (t : CompiledTemplate) (seed : Option SeedInput) (s0 : SessionState),
      GameSession.new t seed = .ok s0 → s0.phase = .roll ∧
      GameSession.choose actionId s0 =
        (.error (.generic (phaseMismatchMessage .roll .choose)), s0)) := by
  refine ⟨?_, ?_, ?_, ?_, ?_, ?_⟩
  · intro h; rw [GameSession.roll, if_pos h]
  · intro h; rw [GameSession.choose, if_pos h]
  · intro h; rw [GameSession.apply, if_pos h]
  · intro h; rw [GameSession.endTurn, if_pos h]
  · intro current expected
    refine ⟨"Cannot perform action in phase " ++ sq, sq ++ ". Expected " ++ sq,
      sq ++ ".", ?_⟩
    simp only [phaseMismatchMessage, String.append_assoc]
  · intro t seed s0 h
    rw [GameSession.new] at h
    cases hn : normalizeSeed seed with
    | error e => rw [hn] at h; exact absurd h (by simp)
    | ok rng =>
      rw [hn] at h
      injection h with h
      subst h
      refine ⟨rfl, ?_⟩
      rw [GameSession.choose, if_pos (by decide : GamePhase.roll ≠ GamePhase.choose)]

/-- Witness for C7: all four operations fail on the completed sample state,
and a fresh sample session rejects `choose` before any roll. -/
theorem phase_mismatch_witness :
    GameSession.roll 1 sampleCompleteState =
      (.error (.generic (phaseMismatchMessage .complete .roll)), sampleCompleteState) ∧
    GameSession.choose "gain" sampleCompleteState =
      (.error (.generic (phaseMismatchMessage .complete .choose)), sampleCompleteState) ∧
    GameSession.apply sampleCompleteState =
      (.error (.generic (phaseMismatchMessage .complete .apply)), sampleCompleteState) ∧
    GameSession.endTurn sampleCompleteState =
      (.error (.generic (phaseMismatchMessage .complete .end_)), sampleCompleteState) ∧
    GameSession.choose "gain" sampleInitialState =
      (.error (.generic (phaseMismatchMessage .roll .choose)), sampleInitialState) := by
  have h := phase_mismatch_spec sampleCompleteState 1 "gain"
  have h6 := (phase_mismatch_spec sampleInitialState 1 "gain").2.2.2.2.2
    sampleTemplate (some sampleSeed) sampleInitialState (by rfl)
  exact ⟨h.1 (by decide), h.2.1 (by decide), h.2.2.1 (by decide),
    h.2.2.2.1 (by decide), h6.2⟩

/-- A failing `applyChosenAction` commits nothing: the returned state is the
input state (the effect loop works on scratch accumulators only). -/
theorem applyChosenAction_error (s : SessionState) (e : JsError) (s1 : SessionState)
    (h : GameSession.applyChosenAction s = (.error e, s1)) : s1 = s := by
  rw [GameSession.applyChosenAction] at h
  cases hca : s.chosenAction with
  | none => simp only [hca] at h; injection h with _ h2; exact h2.symm
  | some action =>
    simp only [hca] at h
    cases hl : applyEffectsLoop action.id s.template.resourceMap action.effects [] s.resources
        (createVariables s) with
    | error e2 => simp only [hl] at h; injection h with _ h2; exact h2.symm
    | ok pair => simp only [hl] at h; injection h with h1 _; exact absurd h1 (by simp)

/-- Claim C5: whenever `apply()` fails — phase mismatch, missing chosen
action, or any failing effect in the chosen action's sequence (non-numeric
result, unknown resource, minimum undercut, unclamped maximum excess) — the
session state after the call, and in particular its resource snapshot, is
exactly the state before the call: no effect of the failed call, including
earlier successful effects of the same sequence, is committed. -/
theorem apply_atomicity (s : SessionState) (e : JsError) (s2 : SessionState)
    (h : GameSession.apply s = (.error e, s2)) :
    s2 = s ∧ s2.resources = s.resources := by
  rw [GameSession.apply] at h
  by_cases hp : s.phase ≠ GamePhase.apply
  · rw [if_pos hp] at h
    injection h with _ h2
    exact ⟨h2.symm, by rw [h2]⟩
  · rw [if_neg hp] at h
    rcases hca : GameSession.applyChosenAction s with ⟨r, s1⟩
    rw [hca] at h
    cases r with
    | error e1 =>
      injection h with _ h2
      have := applyChosenAction_error s e1 s1 hca
      subst this
      exact ⟨h2.symm, by rw [h2]⟩
    | ok outcome => injection h with h1 _; exact absurd h1 (by simp)

unseal Rat.add Rat.mul Rat.sub Rat.inv in
/-- Witness for C5: on the bounded sample state in phase `apply` with the
draining action chosen, `apply()` fails with the below-minimum error and
leaves the resource snapshot untouched. -/
theorem apply_atomicity_witness :
    GameSession.apply sampleApplyFailState =
      (.error (.generic ("Resource " ++ sq ++ "ore" ++ sq ++ " cannot drop below " ++
        toString (0 : Rat))), sampleApplyFailState) ∧
    sampleApplyFailState.resources = sampleApplyFailState.resources := by
  have hfail : GameSession.apply sampleApplyFailState =
      (.error (.generic ("Resource " ++ sq ++ "ore" ++ sq ++ " cannot drop below " ++
        toString (0 : Rat))), sampleApplyFailState) := by rfl
  exact ⟨hfail, (apply_atomicity sampleApplyFailState _ sampleApplyFailState hfail).2⟩

/-- Property assignment followed by lookup of the same key yields the
assigned value. -/
theorem lookupAssoc_setAssoc_self {α : Type} (l : List (String × α)) (key : String) (value : α) :
    lookupAssoc (setAssoc l key value) key = some value := by
  induction l with
  | nil => simp [setAssoc, lookupAssoc]
  | cons p rest ih =>
    rw [setAssoc]
    by_cases hk : p.1 = key
    · rw [if_pos hk, lookupAssoc]
      simp [hk]
    · rw [if_neg hk, lookupAssoc, List.find?]
      rw [lookupAssoc] at ih
      have hd : decide (p.1 = key) = false := by simp [hk]
      rw [hd]
      exact ih

/-- Claim C6: for an effect whose computed update would exceed the target
resource's declared maximum (and does not trip the minimum check evaluated
first): if the effect is marked clamp, the loop continues with the recorded
delta capped to `max − previous` and the resource landing exactly at the
declared maximum, raising no error; if the effect is not marked clamp, the
apply fails with the over-maximum error. -/
theorem clamp_spec
    (actionId : String) (resourceMap : List (String × ResourceDefinition))
    (effect : CompiledActionEffect) (rest : List CompiledActionEffect)
    (deltas resulting : List (String × Rat)) (vars : List (String × MiniValue))
    (definition : ResourceDefinition) (value previous mx : Rat)
    (heval : evaluateExpression effect.ast { vars := vars } = .ok (.num value))
    (hdef : lookupAssoc resourceMap effect.resource = some definition)
    (hprev : lookupAssoc resulting effect.resource = some previous)
    (hmax : definition.max = some mx)
    (hover : previous + value > mx)
    (hmin : (match definition.min with
        | some mn => decide (previous + value < mn)
        | none => false) = false) :
    (effect.clamp = true →
      applyEffectsLoop actionId resourceMap (effect :: rest) deltas resulting vars =
        applyEffectsLoop actionId resourceMap rest
          (setAssoc deltas effect.resource (mx - previous))
          (setAssoc resulting effect.resource mx)
          (setAssoc vars effect.resource (.num mx)) ∧
      lookupAssoc (setAssoc resulting effect.resource mx) effect.resource = some mx) ∧
    (effect.clamp = false →
      applyEffectsLoop actionId resourceMap (effect :: rest) deltas resulting vars =
        .error (.generic ("Resource " ++ sq ++ effect.resource ++ sq ++
          " cannot exceed " ++ toString mx))) := by
  have hstep : applyEffectsLoop actionId resourceMap (effect :: rest) deltas resulting vars =
      if effect.clamp then
        applyEffectsLoop actionId resourceMap rest
          (setAssoc deltas effect.resource (mx - previous))
          (setAssoc resulting effect.resource mx)
          (setAssoc vars effect.resource (.num mx))
      else
        .error (.generic ("Resource " ++ sq ++ effect.resource ++ sq ++
          " cannot exceed " ++ toString mx)) := by
    rw [applyEffectsLoop]
    simp only [heval, hdef, hprev, hmax, hmin]
    rw [if_neg (by simp), if_pos hover]
  constructor
  · intro hc
    rw [hc] at hstep
    simp only [if_pos] at hstep
    exact ⟨hstep, lookupAssoc_setAssoc_self resulting effect.resource mx⟩
  · intro hc
    rw [hc] at hstep
    simpa using hstep

unseal Rat.add Rat.mul Rat.sub Rat.inv in
/-- Witness for C6 at `ore = 5`, effect value 9, maximum 10: the clamped
effect lands the resource at exactly 10 and continues; the unclamped one
fails with the over-maximum error. -/
theorem clamp_spec_witness :
    (applyEffectsLoop "act" [("ore", boundedResource)] [clampEffect]
        [] [("ore", 5)] [("ore", .num 5)] =
      applyEffectsLoop "act" [("ore", boundedResource)] []
        (setAssoc [] "ore" (10 - 5)) (setAssoc [("ore", 5)] "ore" 10)
        (setAssoc [("ore", .num 5)] "ore" (.num 10)) ∧
      lookupAssoc (setAssoc [("ore", (5 : Rat))] "ore" 10) "ore" = some 10) ∧
    applyEffectsLoop "act" [("ore", boundedResource)] [noClampEffect]
        [] [("ore", 5)] [("ore", .num 5)] =
      .error (.generic ("Resource " ++ sq ++ "ore" ++ sq ++ " cannot exceed " ++
        toString (10 : Rat))) := by
  refine ⟨?_, ?_⟩
  · exact (clamp_spec "act" [("ore", boundedResource)] clampEffect []
      [] [("ore", 5)] [("ore", .num 5)] boundedResource 9 5 10
      (by rfl) (by rfl) (by rfl) (by rfl) (by decide) (by decide)).1 rfl
  · exact (clamp_spec "act" [("ore", boundedResource)] noClampEffect []
      [] [("ore", 5)] [("ore", .num 5)] boundedResource 9 5 10
      (by rfl) (by rfl) (by rfl) (by rfl) (by decide) (by decide)).2 rfl

/-- The invariant only concerns the history and the counter. -/
theorem logInv_congr (s s2 : SessionState) (hh : s2.history = s.history)
    (hc : s2.timestampCounter = s.timestampCounter) (h : logInv s) : logInv s2 := by
  rw [logInv, hh, hc]; exact h

/-- Appending one event stamped `counter + 1` preserves the invariant. -/
theorem logInv_append_one (s s2 : SessionState) (hinv : logInv s) (ev : GameEvent)
    (hh : s2.history = s.history ++ [ev])
    (hts : ev.timestamp = s.timestampCounter + 1)
    (hc : s2.timestampCounter = s.timestampCounter + 1) : logInv s2 := by
  obtain ⟨hmap, hcnt⟩ := hinv
  constructor
  · rw [hh, List.map_append, List.map_cons, List.map_nil, hmap, hts, hcnt,
      List.length_append, List.length_cons, List.length_nil]
    simp [List.range'_1_concat, Nat.add_comm]
  · rw [hh, hc, hcnt, List.length_append, List.length_cons, List.length_nil]

/-- The effect application never touches the log or the counter. -/
theorem applyChosenAction_log (s : SessionState) :
    (GameSession.applyChosenAction s).2.history = s.history ∧
    (GameSession.applyChosenAction s).2.timestampCounter = s.timestampCounter := by
  rw [GameSession.applyChosenAction]
  cases hca : s.chosenAction with
  | none => simp [hca]
  | some action =>
    cases hl : applyEffectsLoop action.id s.template.resourceMap action.effects [] s.resources
        (createVariables s) with
    | error e => simp [hca, hl]
    | ok pair => simp [hca, hl]

/-- The replay-turn finalization never touches the log or the counter. -/
theorem finalizeTurnLog_log (s : SessionState) :
    (finalizeTurnLog s).history = s.history ∧
    (finalizeTurnLog s).timestampCounter = s.timestampCounter := by
  rw [finalizeTurnLog]
  cases s.currentReplayTurn with
  | none => exact ⟨rfl, rfl⟩
  | some t =>
    rcases t with ⟨tn, tr, ta, tres⟩
    cases tr <;> cases ta <;> cases tres <;> first
      | exact ⟨rfl, rfl⟩
      | (dsimp only; split <;> exact ⟨rfl, rfl⟩)

/-- Claim C9: a fresh session's log is the single `setup` event with
timestamp 1; each public operation preserves the invariant that the log
timestamps are the strictly increasing integers `1, …, n` matching the
counter, and only ever appends to the log (the old log is a prefix of the
new one); under the invariant the timestamps are strictly increasing. -/
theorem event_log_spec :
    (∀ (t : CompiledTemplate) (seed : Option SeedInput) (s0 : SessionState),
      GameSession.new t seed = .ok s0 →
      s0.history = [GameEvent.setup 0 s0.resources 1] ∧ logInv s0) ∧
    (∀ s : SessionState, logInv s →
      (∀ fuel, logInv (GameSession.roll fuel s).2 ∧
        ∃ tail, (GameSession.roll fuel s).2.history = s.history ++ tail) ∧
      (∀ actionId, logInv (GameSession.choose actionId s).2 ∧
        ∃ tail, (GameSession.choose actionId s).2.history = s.history ++ tail) ∧
      (logInv (GameSession.apply s).2 ∧
        ∃ tail, (GameSession.apply s).2.history = s.history ++ tail) ∧
      (logInv (GameSession.endTurn s).2 ∧
        ∃ tail, (GameSession.endTurn s).2.history = s.history ++ tail)) ∧
    (∀ s : SessionState, logInv s →
      List.Pairwise (· < ·) (s.history.map GameEvent.timestamp)) := by
  refine ⟨?_, ?_, ?_⟩
  · intro t seed s0 h
    rw [GameSession.new] at h
    cases hn : normalizeSeed seed with
    | error e => rw [hn] at h; exact absurd h (by simp)
    | ok rng =>
      rw [hn] at h
      injection h with h
      subst h
      exact ⟨rfl, rfl, rfl⟩
  · intro s hinv
    refine ⟨?_, ?_, ?_, ?_⟩
    · intro fuel
      rw [GameSession.roll]
      by_cases hp : s.phase ≠ GamePhase.roll
      · rw [if_pos hp]
        exact ⟨hinv, [], (List.append_nil _).symm⟩
      · rw [if_neg hp]
        cases hd : s.template.dice.head? with
        | none => exact ⟨hinv, [], (List.append_nil _).symm⟩
        | some dice =>
          rcases hr : rollDiceValues fuel dice.sides dice.count s.rng with ⟨r, rng⟩
          cases r with
          | error e =>
            simp only [hr]
            exact ⟨hinv, [], (List.append_nil _).symm⟩
          | ok values =>
            simp only [hr]
            refine ⟨logInv_append_one s _ hinv _ rfl rfl rfl, [_], rfl⟩
    · intro actionId
      rw [GameSession.choose]
      by_cases hp : s.phase ≠ GamePhase.choose
      · rw [if_pos hp]
        exact ⟨hinv, [], (List.append_nil _).symm⟩
      · rw [if_neg hp]
        cases ha : listAvailableActions s with
        | error e =>
          simp only [ha]
          exact ⟨hinv, [], (List.append_nil _).symm⟩
        | ok actions =>
          cases hf : actions.find? (fun candidate => candidate.id = actionId) with
          | none =>
            simp only [ha, hf]
            exact ⟨hinv, [], (List.append_nil _).symm⟩
          | some action =>
            simp only [ha, hf]
            refine ⟨logInv_append_one s _ hinv _ rfl rfl rfl, [_], rfl⟩
    · rw [GameSession.apply]
      by_cases hp : s.phase ≠ GamePhase.apply
      · rw [if_pos hp]
        exact ⟨hinv, [], (List.append_nil _).symm⟩
      · rw [if_neg hp]
        rcases hca : GameSession.applyChosenAction s with ⟨r, s1⟩
        have hlog := applyChosenAction_log s
        rw [hca] at hlog
        cases r with
        | error e =>
          simp only [hca]
          exact ⟨logInv_congr s s1 hlog.1 hlog.2 hinv, [], by
            rw [hlog.1, List.append_nil]⟩
        | ok outcome =>
          simp only [hca]
          refine ⟨logInv_append_one s1 _ (logInv_congr s s1 hlog.1 hlog.2 hinv) _
            rfl rfl rfl, ?_⟩
          exact ⟨[_], by rw [hlog.1]⟩
    · rw [GameSession.endTurn]
      by_cases hp : s.phase ≠ GamePhase.end_
      · rw [if_pos hp]
        exact ⟨hinv, [], (List.append_nil _).symm⟩
      · rw [if_neg hp]
        set s1 : SessionState := { s with
          history := s.history ++
            [GameEvent.endTurn s.turn s.resources (s.timestampCounter + 1)]
          timestampCounter := s.timestampCounter + 1 } with hs1
        have hinv1 : logInv s1 := logInv_append_one s s1 hinv _ rfl rfl rfl
        have hfl := finalizeTurnLog_log s1
        have hinv2 : logInv (finalizeTurnLog s1) :=
          logInv_congr s1 _ hfl.1 hfl.2 hinv1
        have hhist2 : (finalizeTurnLog s1).history = s.history ++
            [GameEvent.endTurn s.turn s.resources (s.timestampCounter + 1)] := hfl.1
        by_cases hend : shouldEndGame (finalizeTurnLog s1) = true
        · rw [if_pos hend]
          cases hs : evaluateScore (finalizeTurnLog s1) with
          | error e =>
            simp only [hs]
            exact ⟨hinv2, _, hhist2⟩
          | ok score =>
            simp only [hs]
            refine ⟨logInv_append_one (finalizeTurnLog s1) _ hinv2 _
              rfl rfl rfl, ?_⟩
            refine ⟨[GameEvent.endTurn s.turn s.resources (s.timestampCounter + 1),
              GameEvent.complete (finalizeTurnLog s1).turn score
                (finalizeTurnLog s1).resources
                ((finalizeTurnLog s1).timestampCounter + 1)], ?_⟩
            show (finalizeTurnLog s1).history ++ _ = _
            rw [hhist2, List.append_assoc]
            rfl
        · rw [if_neg hend]
          exact ⟨logInv_congr (finalizeTurnLog s1) _ rfl rfl hinv2,
            [GameEvent.endTurn s.turn s.resources (s.timestampCounter + 1)], hhist2⟩
  · intro s hinv
    rw [hinv.1]
    exact List.pairwise_lt_range' 1 s.history.length

/-- Witness for C9: the fresh sample session's log is the setup event with
timestamp 1, the invariant survives a concrete `roll`, and the concrete
timestamps are strictly increasing. -/
theorem event_log_witness :
    sampleInitialState.history = [GameEvent.setup 0 sampleInitialState.resources 1] ∧
    logInv (GameSession.roll 5 sampleInitialState).2 ∧
    List.Pairwise (· < ·) (sampleInitialState.history.map GameEvent.timestamp) := by
  have h1 := event_log_spec.1 sampleTemplate (some sampleSeed) sampleInitialState (by rfl)
  have h2 := (event_log_spec.2.1 sampleInitialState h1.2).1 5
  have h3 := event_log_spec.2.2 sampleInitialState h1.2
  exact ⟨h1.1, h2.1, h3⟩

/-- Claim C1: `autoplay` is a pure function of the template, the policy and
the seed — it consults no clock, no ambient randomness and no state outside
the session it creates — so two independent calls with the same arguments
return the same result, and in particular two successful runs produce
replay records agreeing on the template id and version, the serialized
initial seed, the ordered per-turn records and the final score. -/
theorem autoplay_deterministic (fuel : Nat) (template : CompiledTemplate)
    (policy : DecisionPolicy) (seed : Option SeedInput) :
    autoplay fuel template policy seed = autoplay fuel template policy seed ∧
    (∀ r1 r2 : ReplayRecord,
      autoplay fuel template policy seed = .ok r1 →
      autoplay fuel template policy seed = .ok r2 →
      r1.templateId = r2.templateId ∧ r1.templateVersion = r2.templateVersion ∧
      r1.seed = r2.seed ∧ r1.turns = r2.turns ∧ r1.finalScore = r2.finalScore) := by
  refine ⟨rfl, ?_⟩
  intro r1 r2 h1 h2
  rw [h1] at h2
  injection h2 with h
  subst h
  exact ⟨rfl, rfl, rfl, rfl, rfl⟩

unseal Rat.add Rat.mul Rat.sub Rat.inv in
/-- Witness for C1: the full two-turn sample game runs to completion and
yields `sampleReplay`; applying determinism to the two (syntactically
independent, judgmentally equal) runs gives the component equalities. -/
theorem autoplay_deterministic_witness :
    autoplay 20 sampleTemplate samplePolicy (some sampleSeed) = .ok sampleReplay ∧
    sampleReplay.turns = sampleReplay.turns ∧
    sampleReplay.finalScore = sampleReplay.finalScore := by
  have hrun : autoplay 20 sampleTemplate samplePolicy (some sampleSeed) = .ok sampleReplay := by
    decide
  have hdet := (autoplay_deterministic 20 sampleTemplate samplePolicy (some sampleSeed)).2
    sampleReplay sampleReplay hrun hrun
  exact ⟨hrun, hdet.2.2.2.1, hdet.2.2.2.2⟩

end RWF
